import Mathlib

/-!
Verification of the munazzim day-scheduling core (template parser "Qalib",
scheduler, validator) against its natural-language specification.

Shallow embedding conventions:
* All clock values are integers counting minutes.  A `datetime` on the plan
  date is the number of minutes since that date's midnight (so times past
  midnight simply exceed 1439, and `timedelta(days=1)` is `1440`).
  A `time` (time-of-day) is likewise its minute count; `datetime.combine`
  of the anchor date with a time-of-day is the identity on these numbers.
* `timedelta` values are integer minutes (every duration constructed by the
  source is a whole number of minutes).
* Python dataclasses become structures / an inductive tagged union; in-place
  mutation becomes explicit state passing through `SchedState`.
* Fallible code returns `Except PyErr`; `PyErr` distinguishes the source's
  `QalibParseError` from a bare `ValueError` and `ZeroDivisionError`.
-/

namespace Munazzim

/-- Error kinds the Python source can raise: `QalibParseError` (a
`RuntimeError` subclass), a bare `ValueError` (for instance from
`parse_hhmm` or `int()`), `ZeroDivisionError`, and the `TypeError` that
`datetime.combine` raises when handed a non-time attribute (its message is
interpreter-composed and not modelled). -/
inductive PyErr where
  | parseError (msg : String)
  | valueError (msg : String)
  | zeroDivision
  | typeError
deriving DecidableEq, Repr

/-- PrayerSchedule from config.py: five time-of-day values plus optional
sunrise, in minutes since midnight. -/
structure PrayerSchedule where
  fajr : Int
  dhuhr : Int
  asr : Int
  maghrib : Int
  isha : Int
  sunrise : Option Int := none
deriving DecidableEq, Repr

/-- PrayerDurations from config.py: five durations in minutes. -/
structure PrayerDurations where
  fajr : Int
  dhuhr : Int
  asr : Int
  maghrib : Int
  isha : Int
deriving DecidableEq, Repr

/-- A `start_ref`/`end_ref` value of a PrayerBoundEvent: in the source the
field holds either a `datetime.time` or a `str` (a prayer name, possibly
with a signed minute offset suffix). -/
inductive TimeRef where
  | clock (t : Int)
  | str (s : String)
deriving DecidableEq, Repr

/-- Task from models.py (the parser only fills label, note and the two
occurrence counters). -/
structure Task where
  label : String
  note : Option String := none
  totalOccurrences : Option Int := none
  remainingOccurrences : Option Int := none
deriving DecidableEq, Repr

/-- Event from models.py: the four dataclasses Event (relative), FixedEvent,
PrayerEvent and PrayerBoundEvent, as a closed tagged union.  Common fields:
name, duration (minutes), flexible flag, sub-tasks. -/
inductive Event where
  | relative (name : String) (duration : Int) (flexible : Bool) (tasks : List Task)
  | fixedEvent (name : String) (duration : Int) (flexible : Bool) (tasks : List Task)
      (anchor : Int)
  | prayerEvent (name : String) (duration : Int) (flexible : Bool) (tasks : List Task)
      (prayer : String) (anchor : Option Int)
  | prayerBoundEvent (name : String) (duration : Int) (flexible : Bool) (tasks : List Task)
      (startRef : Option TimeRef) (endRef : Option TimeRef)
deriving DecidableEq, Repr

/-- Event.name. -/
def Event.name : Event → String
  | .relative n _ _ _ => n
  | .fixedEvent n _ _ _ _ => n
  | .prayerEvent n _ _ _ _ _ => n
  | .prayerBoundEvent n _ _ _ _ _ => n

/-- Event.duration. -/
def Event.duration : Event → Int
  | .relative _ d _ _ => d
  | .fixedEvent _ d _ _ _ => d
  | .prayerEvent _ d _ _ _ _ => d
  | .prayerBoundEvent _ d _ _ _ _ => d

/-- Event.tasks. -/
def Event.tasks : Event → List Task
  | .relative _ _ _ t => t
  | .fixedEvent _ _ _ t _ => t
  | .prayerEvent _ _ _ t _ _ => t
  | .prayerBoundEvent _ _ _ t _ _ => t

/-- `dataclasses.replace(event, duration=d)`: a copy with a new duration. -/
def Event.withDuration : Event → Int → Event
  | .relative n _ f t, d => .relative n d f t
  | .fixedEvent n _ f t a, d => .fixedEvent n d f t a
  | .prayerEvent n _ f t p a, d => .prayerEvent n d f t p a
  | .prayerBoundEvent n _ f t s e, d => .prayerBoundEvent n d f t s e

/-- A copy of the event with new sub-tasks (models appending to the mutable
`tasks` list of the current event). -/
def Event.withTasks : Event → List Task → Event
  | .relative n d f _, t => .relative n d f t
  | .fixedEvent n d f _ a, t => .fixedEvent n d f t a
  | .prayerEvent n d f _ p a, t => .prayerEvent n d f t p a
  | .prayerBoundEvent n d f _ s e, t => .prayerBoundEvent n d f t s e

/-- DayTemplate from models.py.  `startTime` is the wake time in minutes;
the two prayer maps are insertion-ordered dictionaries, modelled as
association lists. -/
structure DayTemplate where
  name : String
  startTime : Int
  events : List Event
  description : String := ""
  prayerDurations : List (String × String) := []
  prayerOverrides : List (String × String) := []
deriving DecidableEq, Repr

/-- ScheduledEvent from models.py: an event plus start and end timestamps
(the Python field `end` is called `stop` here because `end` is a Lean
keyword). -/
structure ScheduledEvent where
  event : Event
  start : Int
  stop : Int
deriving DecidableEq, Repr

/-- DayPlan from models.py.  `generatedFor` is the plan date, kept as an
opaque integer day identifier. -/
structure DayPlan where
  templateName : String
  generatedFor : Int
  items : List ScheduledEvent := []
deriving DecidableEq, Repr

/-- PrayerSlot from scheduler.py. -/
structure PrayerSlot where
  label : String
  start : Int
  duration : Int
deriving DecidableEq, Repr

/-- The mutable state of one `Scheduler.build_plan` invocation: the cursor,
the prayer slots still to schedule, and the plan being built.  The source
keeps the full slot list plus `prayer_index`; only the suffix from that
index is ever read again (peek, pop and `push_prayers_after` all start
there), so the state carries exactly that pending suffix.  The template and
the schedule are carried in the state as well so that the embedding can
express that the source never mutates them (claim C9). -/
structure SchedState where
  template : DayTemplate
  schedule : PrayerSchedule
  cursor : Int
  pending : List PrayerSlot
  plan : List ScheduledEvent
deriving DecidableEq, Repr

/-- The loop-visible part of the state, threaded through the scheduler's
inner loops. -/
structure LoopState where
  pending : List PrayerSlot
  cursor : Int
  plan : List ScheduledEvent
deriving DecidableEq, Repr

/-- Python `str` whitespace (ASCII): space, tab, newline, carriage return,
vertical tab, form feed. -/
def pyIsSpace (c : Char) : Bool :=
  c = ' ' || c = '\t' || c = '\n' || c = '\r' || c = '\x0b' || c = '\x0c'

/-- Python `str.strip()`. -/
def pyStrip (s : String) : String :=
  String.mk (((s.data.dropWhile pyIsSpace).reverse.dropWhile pyIsSpace).reverse)

/-- Python `str.rstrip()`. -/
def pyRStrip (s : String) : String :=
  String.mk ((s.data.reverse.dropWhile pyIsSpace).reverse)

/-- Python `str.lower()` (ASCII; every token the source lowercases is
ASCII). -/
def pyLower (s : String) : String :=
  String.mk (s.data.map Char.toLower)

/-- Python `str.startswith`. -/
def pyStartsWith (s pre : String) : Bool :=
  pre.data.isPrefixOf s.data

/-- Python `c in s` for a single character. -/
def pyContainsChar (s : String) (c : Char) : Bool :=
  s.data.contains c

/-- Python `s[n:]` by character count. -/
def pyDrop (s : String) (n : Nat) : String :=
  String.mk (s.data.drop n)

/-- Python `len(s)` in characters. -/
def pyLen (s : String) : Nat :=
  s.data.length

/-- Python `sep.join(parts)`. -/
def pyJoin (sep : String) : List String → String
  | [] => ""
  | [x] => x
  | x :: y :: rest => x ++ sep ++ pyJoin sep (y :: rest)

/-- The split at the first occurrence of a (non-empty) separator: the part
before it and the part after it, or `none` when the separator does not
occur. -/
def splitFirstListOn (sep : List Char) : List Char → Option (List Char × List Char)
  | [] => none
  | c :: rest =>
    if sep.isPrefixOf (c :: rest) then some ([], (c :: rest).drop sep.length)
    else
      match splitFirstListOn sep rest with
      | none => none
      | some (a, b) => some (c :: a, b)

/-- Python `str.split(sep, 1)`: the part before the first occurrence of the
separator and the rest (the whole string when the separator is absent —
every call site guards with a containment check first, as the source
does). -/
def splitFirstStr (s sep : String) : String × String :=
  match splitFirstListOn sep.data s.data with
  | none => (s, "")
  | some (a, b) => (String.mk a, String.mk b)

/-- `str.split(c, 1)` for a one-character separator. -/
def splitFirstChar (s : String) (c : Char) : String × String :=
  splitFirstStr s (String.singleton c)

/-- Python `sub in s`. -/
def containsSubstr (s sub : String) : Bool :=
  (splitFirstListOn sub.data s.data).isSome

/-- Split on every occurrence of one character (used for the parser's line
splitting). -/
def splitAllChar (c : Char) : List Char → List (List Char)
  | [] => [[]]
  | d :: rest =>
    if d = c then [] :: splitAllChar c rest
    else
      match splitAllChar c rest with
      | [] => [[d]]
      | g :: gs => (d :: g) :: gs

/-- The lines of a template text (`str.splitlines` on the newline-separated
text the source is handed). -/
def pyLines (s : String) : List String :=
  (splitAllChar '\n' s.data).map String.mk

/-- Maximal runs between whitespace characters. -/
def wsTokensAux : List Char → List (List Char)
  | [] => [[]]
  | d :: rest =>
    if pyIsSpace d then [] :: wsTokensAux rest
    else
      match wsTokensAux rest with
      | [] => [[d]]
      | g :: gs => (d :: g) :: gs

/-- Python `str.split()` with no argument: split on whitespace runs,
discarding empty pieces. -/
def splitWS (s : String) : List String :=
  ((wsTokensAux s.data).filter (fun g => !g.isEmpty)).map String.mk

/-- `prayer_time_map` lookup in `build_plan` (with the `duhr` alias entry). -/
def prayerTimeLookup (s : PrayerSchedule) (key : String) : Option Int :=
  if key = "fajr" then some s.fajr
  else if key = "dhuhr" then some s.dhuhr
  else if key = "duhr" then some s.dhuhr
  else if key = "asr" then some s.asr
  else if key = "maghrib" then some s.maghrib
  else if key = "isha" then some s.isha
  else none

/-- Longest prefix of ASCII letters of a character list, with the rest. -/
def takeLetters : List Char → List Char × List Char
  | [] => ([], [])
  | c :: cs =>
    if c.isAlpha then
      let r := takeLetters cs
      (c :: r.1, r.2)
    else ([], c :: cs)

/-- Decimal digit characters to a natural number. -/
def digitsToNat (l : List Char) : Nat :=
  l.foldl (fun acc c => acc * 10 + (c.toNat - 48)) 0

/-- Matching of the `^(?P<prayer>[A-Za-z]+)(?P<sign>[+-])(?P<minutes>\d{1,3})$`
regex used for prayer-offset tokens; returns the letter group, whether the
sign is minus, and the digit group (as written, so leading zeros are kept). -/
def parseOffsetToken (s : String) : Option (String × Bool × String) :=
  let r := takeLetters s.toList
  match r.1, r.2 with
  | [], _ => none
  | _, [] => none
  | letters, sign :: ds =>
    if (sign = '+' || sign = '-') && !ds.isEmpty && ds.length ≤ 3
        && ds.all Char.isDigit then
      some (String.mk letters, sign = '-', String.mk ds)
    else none

/-- `resolve_ref` from `Scheduler.build_plan` (scheduler.py lines 60-83):
a `time` value is used as-is on the plan date; a string is matched against
the prayer-offset regex, then looked up as a bare prayer name; unknown
names yield no timestamp. -/
def resolveRef (schedule : PrayerSchedule) : Option TimeRef → Option Int
  | none => none
  | some (.clock t) => some t
  | some (.str v) =>
    let raw := pyStrip v
    match parseOffsetToken raw with
    | some (prayer, minus, minutes) =>
      let key := pyLower (pyStrip prayer)
      match prayerTimeLookup schedule (if key = "duhr" then "dhuhr" else key) with
      | none => none
      | some base =>
        let delta : Int := digitsToNat minutes.toList
        some (base + (if minus then -delta else delta))
    | none =>
      match prayerTimeLookup schedule (pyLower raw) with
      | none => none
      | some t => some t

/-- `Scheduler._prayer_slots`: the five prayer slots for the plan date, in
canonical order. -/
def prayerSlotsOf (schedule : PrayerSchedule) (durations : PrayerDurations) :
    List PrayerSlot :=
  [⟨"Fajr", schedule.fajr, durations.fajr⟩,
   ⟨"Dhuhr", schedule.dhuhr, durations.dhuhr⟩,
   ⟨"Asr", schedule.asr, durations.asr⟩,
   ⟨"Maghrib", schedule.maghrib, durations.maghrib⟩,
   ⟨"Isha", schedule.isha, durations.isha⟩]

/-- The ScheduledEvent that `schedule_prayer(slot)` appends: a fresh
PrayerEvent named after the slot, placed at the slot's start (the cursor is
moved there and advanced past the duration). -/
def prayerItemOf (slot : PrayerSlot) : ScheduledEvent :=
  ⟨.prayerEvent (slot.label ++ " Prayer") slot.duration false [] slot.label none,
   slot.start, slot.start + slot.duration⟩

/-- `flush_prayers(before)`: schedule every not-yet-scheduled slot whose
start is at most `before`, in slot order; `before` is fixed at call time
(the loop compares against the argument, not the moving cursor).  Each
iteration pops the slot and runs `schedule_prayer` on it, leaving the
cursor at the slot's end. -/
def flushLoop (before : Int) : List PrayerSlot → Int → List ScheduledEvent → LoopState
  | [], cursor, plan => ⟨[], cursor, plan⟩
  | slot :: rest, cursor, plan =>
    if slot.start > before then ⟨slot :: rest, cursor, plan⟩
    else flushLoop before rest (slot.start + slot.duration) (plan ++ [prayerItemOf slot])

/-- Helper for `push_prayers_after`: walk the pending slots, lifting each
slot start to the boundary until a slot already at or past it is reached. -/
def pushSlots (boundary : Int) : List PrayerSlot → List PrayerSlot
  | [] => []
  | s :: rest =>
    if s.start < boundary then { s with start := boundary } :: pushSlots boundary rest
    else s :: rest

/-- Backward search of `plan.items` for the latest scheduled prayer with
the given (already lowercased) label; returns its index. -/
def findRevPrayerIdx : List ScheduledEvent → String → Option Nat
  | [], _ => none
  | it :: rest, target =>
    match findRevPrayerIdx rest target with
    | some i => some (i + 1)
    | none =>
      match it.event with
      | .prayerEvent _ _ _ _ p _ => if pyLower (pyStrip p) = target then some 0 else none
      | _ => none

/-- In-place correction of an already scheduled prayer entry by a prayer
placeholder (scheduler.py lines 188-197): the anchor, when given, replaces
the entry's start; a positive placeholder duration replaces the entry's
duration and end. -/
def updatePlaceholder (item : ScheduledEvent) (anchor : Option Int) (dur : Int) :
    ScheduledEvent :=
  let start1 := match anchor with
    | some a => a
    | none => item.start
  if 0 < dur then
    { item with start := start1, stop := start1 + dur, event := item.event.withDuration dur }
  else
    { item with start := start1 }

/-- The dequeue loop of the prayer-placeholder branch (scheduler.py lines
199-231): auto-schedule slots preceding the target label, then schedule the
matching slot with the placeholder's anchor/duration overrides applied, then
re-apply the duration override to the latest matching plan entry.  The
source mutates the popped slot object inside the slot list; as that slot's
index is already behind `prayer_index`, nothing reads it again, so a local
copy is an equivalent model. -/
def seekCorrect (targetLabel : String) (dur : Int) (plan1 : List ScheduledEvent) :
    List ScheduledEvent :=
  match findRevPrayerIdx plan1 targetLabel with
  | none => plan1
  | some idx =>
    match plan1[idx]? with
    | none => plan1
    | some item =>
      if 0 < dur then
        plan1.set idx
          { item with stop := item.start + dur, event := item.event.withDuration dur }
      else plan1

/-- The slot with the placeholder's anchor/duration overrides applied
(scheduler.py lines 213-217). -/
def overrideSlot (slot : PrayerSlot) (anchor : Option Int) (dur : Int) : PrayerSlot :=
  let slot1 := match anchor with
    | some a => { slot with start := a }
    | none => slot
  if 0 < dur then { slot1 with duration := dur } else slot1

def seekLoop (targetLabel : String) (anchor : Option Int) (dur : Int) :
    List PrayerSlot → Int → List ScheduledEvent → LoopState
  | [], cursor, plan => ⟨[], cursor, plan⟩
  | slot :: rest, cursor, plan =>
    if pyLower (pyStrip slot.label) ≠ targetLabel then
      seekLoop targetLabel anchor dur rest (slot.start + slot.duration)
        (plan ++ [prayerItemOf slot])
    else
      let slot2 := overrideSlot slot anchor dur
      let plan1 := plan ++ [prayerItemOf slot2]
      ⟨rest, slot2.start + slot2.duration, seekCorrect targetLabel dur plan1⟩

/-- The open-duration loop at the end of `_schedule_event` (scheduler.py
lines 247-276): consume the remaining duration in chunks bounded by the
time until the next prayer slot, scheduling overdue or exactly-reached
slots along the way.  When the chunk is strictly below the time until the
next prayer, `min remaining timeUntil ≠ timeUntil` forces
`chunk = remaining`, so the source's next `while remaining > zero` test
fails and the loop stops right after appending that chunk; the final branch
returns directly accordingly. -/
def relLoop (event : Event) : List PrayerSlot → Int → List ScheduledEvent → Int → LoopState
  | pending, cursor, plan, remaining =>
    if remaining ≤ 0 then ⟨pending, cursor, plan⟩
    else
      match pending with
      | [] =>
        ⟨[], cursor + remaining,
         plan ++ [⟨event.withDuration remaining, cursor, cursor + remaining⟩]⟩
      | slot :: rest =>
        if slot.start < cursor then
          relLoop event rest (slot.start + slot.duration)
            (plan ++ [prayerItemOf slot]) remaining
        else
          let timeUntil := slot.start - cursor
          if timeUntil ≤ 0 then
            relLoop event rest (slot.start + slot.duration)
              (plan ++ [prayerItemOf slot]) remaining
          else
            let chunk := min remaining timeUntil
            let cursor1 := cursor + chunk
            let plan1 := plan ++ [⟨event.withDuration chunk, cursor, cursor1⟩]
            if chunk = timeUntil then
              relLoop event rest (slot.start + slot.duration)
                (plan1 ++ [prayerItemOf slot]) (remaining - chunk)
            else ⟨slot :: rest, cursor1, plan1⟩

/-- The trailing loop of `build_plan`: schedule every still-pending prayer
slot, in slot order. -/
def finishLoop : List PrayerSlot → Int → List ScheduledEvent → LoopState
  | [], cursor, plan => ⟨[], cursor, plan⟩
  | slot :: rest, cursor, plan =>
    finishLoop rest (slot.start + slot.duration) (plan ++ [prayerItemOf slot])

/-- Write an inner-loop result back into the scheduler state. -/
def applyLoop (st : SchedState) (ls : LoopState) : SchedState :=
  { st with pending := ls.pending, cursor := ls.cursor, plan := ls.plan }

/-- `flush_prayers` on the scheduler state. -/
def flushPrayers (st : SchedState) (before : Int) : SchedState :=
  applyLoop st (flushLoop before st.pending st.cursor st.plan)

/-- `push_prayers_after(boundary)`: pending prayer slots whose natural start
precedes the boundary are pushed forward to exactly the boundary. -/
def pushPrayersAfter (st : SchedState) (boundary : Int) : SchedState :=
  { st with pending := pushSlots boundary st.pending }

/-- `Scheduler._schedule_event` (scheduler.py lines 144-276), one template
event against the current state. -/
def scheduleEvent (st : SchedState) (event : Event) : SchedState :=
  match event with
  | .prayerBoundEvent nm dur fl tks startRef endRef =>
    let startDt? : Option Int := match startRef with
      | some r => resolveRef st.schedule (some r)
      | none => some st.cursor
    let endDt? : Option Int := resolveRef st.schedule endRef
    match startDt? with
    | none => st
    | some startDt =>
      let endBase? : Option Int := match endDt? with
        | some e0 => some e0
        | none => if dur ≤ 0 then none else some (startDt + dur)
      match endBase? with
      | none => st
      | some endBase =>
        let endDt := if endBase ≤ startDt then endBase + 1440 else endBase
        let cursor0 := match startRef with
          | some _ => startDt
          | none => st.cursor
        let start := cursor0
        let stop := cursor0 + (endDt - startDt)
        let st1 := { st with
          cursor := stop
          plan := st.plan
            ++ [⟨.prayerBoundEvent nm (stop - start) fl tks startRef endRef, start, stop⟩] }
        pushPrayersAfter st1 stop
  | .prayerEvent _ dur _ _ prayerName anchor =>
    let targetLabel := pyLower (pyStrip prayerName)
    match findRevPrayerIdx st.plan targetLabel with
    | some idx =>
      match st.plan[idx]? with
      | none => st
      | some item => { st with plan := st.plan.set idx (updatePlaceholder item anchor dur) }
    | none => applyLoop st (seekLoop targetLabel anchor dur st.pending st.cursor st.plan)
  | .fixedEvent nm dur fl tks anchor =>
    let start := anchor
    let stop := anchor + dur
    let st1 := { st with
      cursor := stop
      plan := st.plan ++ [⟨.fixedEvent nm (stop - start) fl tks anchor, start, stop⟩] }
    pushPrayersAfter st1 stop
  | .relative nm dur fl tks =>
    applyLoop st (relLoop (.relative nm dur fl tks) st.pending st.cursor st.plan dur)

/-- One iteration of the main loop of `build_plan`: flush due prayers (with
`before` fixed to the cursor position at that moment), then schedule the
event. -/
def stepEvent (st : SchedState) (event : Event) : SchedState :=
  scheduleEvent (flushPrayers st st.cursor) event

/-- `Scheduler.build_plan` with an explicitly supplied plan date, prayer
schedule and prayer-duration settings, returning the full final state. -/
def buildPlanState (template : DayTemplate) (schedule : PrayerSchedule)
    (durations : PrayerDurations) : SchedState :=
  let st0 : SchedState :=
    { template := template
      schedule := schedule
      cursor := template.startTime
      pending := prayerSlotsOf schedule durations
      plan := [] }
  let st1 := template.events.foldl stepEvent st0
  applyLoop st1 (finishLoop st1.pending st1.cursor st1.plan)

/-- `Scheduler.build_plan(template, plan_date=…, prayer_schedule=…)`: the
resulting DayPlan. -/
def buildPlan (template : DayTemplate) (planDate : Int) (schedule : PrayerSchedule)
    (durations : PrayerDurations) : DayPlan :=
  { templateName := template.name
    generatedFor := planDate
    items := (buildPlanState template schedule durations).plan }

/-! ### The Qalib template parser (qalib.py, timeutils.py) -/

/-- Python `str.isdigit` restricted to ASCII (every token reaching it in the
source is ASCII). -/
def isPyDigits (s : String) : Bool :=
  !s.data.isEmpty && s.data.all Char.isDigit

/-- Python `int(s)` on a decimal string: optional surrounding whitespace and
sign, then digits; anything else raises `ValueError`. -/
def pyInt (s : String) : Except PyErr Int :=
  let t := pyStrip s
  let p : Bool × List Char :=
    match t.data with
    | '-' :: rest => (true, rest)
    | '+' :: rest => (false, rest)
    | cs => (false, cs)
  if !p.2.isEmpty && p.2.all Char.isDigit then
    .ok (if p.1 then -(digitsToNat p.2 : Int) else (digitsToNat p.2 : Int))
  else .error (.valueError ("invalid literal for int with base 10: " ++ s))

/-- `parse_hhmm` from timeutils.py: split on the first `:` (or else `.`),
convert both parts with `int()`, range-check, and return the minute count
`hour * 60 + minute`.  Out-of-range fields raise a bare `ValueError`. -/
def parseHHMM (value : String) : Except PyErr Int := do
  let v := pyStrip value
  let parts ←
    if pyContainsChar v ':' then pure (splitFirstChar v ':')
    else if pyContainsChar v '.' then pure (splitFirstChar v '.')
    else throw (.valueError ("Unsupported time format: " ++ v))
  let hour ← pyInt parts.1
  let minute ← pyInt parts.2
  if 0 ≤ hour ∧ hour < 24 ∧ 0 ≤ minute ∧ minute < 60 then
    pure (hour * 60 + minute)
  else throw (.valueError ("Invalid time value: " ++ v))

/-- The `_TIME_TOKEN` regex `^\d{1,2}[:.]\d{2}$` (the source strips the
token first, in `_is_time_token`). -/
def isTimeToken (token : String) : Bool :=
  match (pyStrip token).data with
  | [a, s, b, c] => a.isDigit && (s = ':' || s = '.') && b.isDigit && c.isDigit
  | [a, a2, s, b, c] =>
    a.isDigit && a2.isDigit && (s = ':' || s = '.') && b.isDigit && c.isDigit
  | _ => false

/-- The `_DURATION_TOKEN` regex `^(?:\d+(?::\d{2})?|\d+\.\d{1,2}|\.\d{1,2})$`. -/
def isDurationToken (token : String) : Bool :=
  let r := token.toList.span Char.isDigit
  match r.2 with
  | [] => !r.1.isEmpty
  | ':' :: rest => !r.1.isEmpty && rest.length = 2 && rest.all Char.isDigit
  | '.' :: rest => !rest.isEmpty && rest.length ≤ 2 && rest.all Char.isDigit
  | _ => false

/-- The canonical prayer keys (values of `_PRAYER_ALIASES`). -/
def canonicalPrayers : List String := ["fajr", "dhuhr", "asr", "maghrib", "isha"]

/-- `_is_prayer_token`: membership of the stripped, lowercased token in
`_PRAYER_ALIASES` (the five canonical names plus the `duhr` alias). -/
def isPrayerToken (token : String) : Bool :=
  ["fajr", "dhuhr", "duhr", "asr", "maghrib", "isha"].contains (pyLower (pyStrip token))

/-- Python `str.title()` on the lowercase single words the source feeds it:
capitalize the first character. -/
def pyTitleWord (s : String) : String :=
  match s.data with
  | [] => ""
  | c :: rest => String.mk (c.toUpper :: rest)

/-- `_normalize_prayer_token`: alias resolution (`duhr` → `dhuhr`, canonical
names map to themselves, anything else is kept) and title-casing. -/
def normalizePrayerToken (token : String) : String :=
  let low := pyLower (pyStrip token)
  pyTitleWord (if low = "duhr" then "dhuhr" else low)

/-- `_parse_time_or_prayer`: empty → no reference; a time token → absolute
time; a prayer-offset token → the normalized `Prayer±minutes` string; a bare
prayer name → the normalized name; anything else is a parse error. -/
def parseTimeOrPrayer (token : String) : Except PyErr (Option TimeRef) :=
  let cleaned := pyStrip token
  if cleaned = "" then .ok none
  else if isTimeToken cleaned then do
    let t ← parseHHMM cleaned
    .ok (some (.clock t))
  else
    match parseOffsetToken cleaned with
    | some (prayer, minus, minutes) =>
      .ok (some (.str (normalizePrayerToken prayer ++ (if minus then "-" else "+") ++ minutes)))
    | none =>
      if isPrayerToken cleaned then .ok (some (.str (normalizePrayerToken cleaned)))
      else .error (.parseError ("Unsupported time/prayer token '" ++ token ++ "'"))

/-- `_strip_inline_comment`: the text before the first `#`, right-stripped;
a line without `#` is returned unchanged. -/
def stripInlineComment (value : String) : String :=
  if pyContainsChar value '#' then pyRStrip (splitFirstChar value '#').1
  else value

/-- `_duration_between`: end minus start, wrapping to the next day when the
difference is non-positive. -/
def durationBetween (start endT : Int) : Int :=
  if endT ≤ start then endT + 1440 - start else endT - start

/-- `_duration_token_to_timedelta`: leading `.` → minutes; `H:MM` or `H.MM`
→ hours and minutes (an empty side counts as zero); plain digits → hours. -/
def durationTokenToTimedelta (token : String) : Except PyErr Int :=
  let cleaned := pyStrip token
  if cleaned = "" then .error (.parseError "Empty duration token")
  else if pyStartsWith cleaned "." then do
    let rest := pyDrop cleaned 1
    let minutes ← pyInt (if rest = "" then "0" else rest)
    pure minutes
  else if pyContainsChar cleaned ':' then do
    let p := splitFirstChar cleaned ':'
    let hours ← pyInt (if p.1 = "" then "0" else p.1)
    let minutes ← pyInt (if p.2 = "" then "0" else p.2)
    pure (hours * 60 + minutes)
  else if pyContainsChar cleaned '.' then do
    let p := splitFirstChar cleaned '.'
    let hours ← pyInt (if p.1 = "" then "0" else p.1)
    let minutes ← pyInt (if p.2 = "" then "0" else p.2)
    pure (hours * 60 + minutes)
  else if isPyDigits cleaned then do
    let hours ← pyInt cleaned
    pure (hours * 60)
  else .error (.parseError ("Unsupported duration token '" ++ token ++ "'"))

/-! #### Occurrence expressions (`_eval_occurrence_expression`) -/

/-- The abstract syntax trees `ast.parse(raw, mode="eval")` can hand to the
source's `_eval` walker, restricted to what that walker inspects: numeric
constants (modelled as exact rationals), the two allowed unary operators,
the five allowed binary operators, and a catch-all for every other Python
expression node (which `_eval` rejects). -/
inductive OccExpr where
  | num (value : ℚ)
  | uadd (operand : OccExpr)
  | usub (operand : OccExpr)
  | add (l r : OccExpr)
  | sub (l r : OccExpr)
  | mult (l r : OccExpr)
  | divide (l r : OccExpr)
  | floorDiv (l r : OccExpr)
  | unsupportedNode
deriving DecidableEq, Repr

/-- Failure modes of the `_eval` walker: an unsupported node (raised as a
`QalibParseError`) or a division by zero (an uncaught `ZeroDivisionError`). -/
inductive OccEvalErr where
  | unsupportedExpr
  | zeroDivision
deriving DecidableEq, Repr

/-- The `_eval` walker of `_eval_occurrence_expression`: arithmetic over
numeric constants.  Python evaluates both operands before dispatching on
the operator; `/` and `//` raise `ZeroDivisionError` on a zero divisor. -/
def evalNode : OccExpr → Except OccEvalErr ℚ
  | .num v => .ok v
  | .uadd e => evalNode e
  | .usub e => do
    let v ← evalNode e
    pure (-v)
  | .add a b => do
    let l ← evalNode a
    let r ← evalNode b
    pure (l + r)
  | .sub a b => do
    let l ← evalNode a
    let r ← evalNode b
    pure (l - r)
  | .mult a b => do
    let l ← evalNode a
    let r ← evalNode b
    pure (l * r)
  | .divide a b => do
    let l ← evalNode a
    let r ← evalNode b
    if r = 0 then throw .zeroDivision else pure (l / r)
  | .floorDiv a b => do
    let l ← evalNode a
    let r ← evalNode b
    if r = 0 then throw .zeroDivision else pure ((⌊l / r⌋ : Int) : ℚ)
  | .unsupportedNode => throw .unsupportedExpr

/-- `_eval_occurrence_expression` (qalib.py lines 108-140) applied to an
already-parsed expression tree: evaluate, reject non-positive results with
a `QalibParseError`, and return `int(result)` (truncation toward zero,
which on the accepted positive values is the floor). -/
def evalOccurrenceExpression (raw : String) (e : OccExpr) : Except PyErr Int :=
  match evalNode e with
  | .error .unsupportedExpr => .error (.parseError ("Unsupported expression '" ++ raw ++ "'"))
  | .error .zeroDivision => .error .zeroDivision
  | .ok result =>
    if result ≤ 0 then .error (.parseError "Occurrences must be positive")
    else .ok ⌊result⌋

/-- Digit strings (with an optional fraction part) as exact rationals. -/
def parseOccDigits (cs : List Char) : Option ℚ :=
  match cs.span Char.isDigit with
  | (ds, []) => if ds.isEmpty then none else some (digitsToNat ds : ℚ)
  | (ds, '.' :: fs) =>
    if ds.isEmpty && fs.isEmpty then none
    else if fs.all Char.isDigit then
      some ((digitsToNat ds : ℚ) + (digitsToNat fs : ℚ) / ((10 : ℚ) ^ fs.length))
    else none
  | _ => none

/-- Modelling of `ast.parse(raw, mode="eval")` for the occurrence strings
the templates of this development contain: an optionally signed numeric
literal.  Any other string maps to the catch-all node (so evaluation fails,
as the source's walker fails on everything outside its allow-list); richer
arithmetic source strings are represented directly as `OccExpr` trees,
which is the level at which the occurrence-grammar claims are stated. -/
def parseOccLiteral (raw : String) : OccExpr :=
  let t := pyStrip raw
  match t.data with
  | '-' :: rest =>
    match parseOccDigits rest with
    | some q => .usub (.num q)
    | none => .unsupportedNode
  | '+' :: rest =>
    match parseOccDigits rest with
    | some q => .uadd (.num q)
    | none => .unsupportedNode
  | cs =>
    match parseOccDigits cs with
    | some q => .num q
    | none => .unsupportedNode

/-! #### The template builder (`_TemplateBuilder`) -/

/-- `_split_task_label_and_note`: split on the first `::`; an empty note
becomes `None`. -/
def splitTaskLabelAndNote (text : String) : String × Option String :=
  if containsSubstr text "::" then
    let p := splitFirstStr text "::"
    (pyStrip p.1, if pyStrip p.2 = "" then none else some (pyStrip p.2))
  else (pyStrip text, none)

/-- Ordered-dictionary write `d[k] = v`: overwrite in place or append. -/
def setKey : List (String × String) → String → String → List (String × String)
  | [], k, v => [(k, v)]
  | (k0, v0) :: rest, k, v =>
    if k0 = k then (k0, v) :: rest else (k0, v0) :: setKey rest k v

/-- The mutable parse state of `_TemplateBuilder`.  The current event is
always the most recently appended one, so it is represented by the last
element of `events`. -/
structure TemplateBuilder where
  name : String
  description : String
  startTime : Option Int
  events : List Event
  prayerDurations : List (String × String)
  prayerOverrides : List (String × String)
  blockCounter : Nat
deriving DecidableEq, Repr

/-- `_TemplateBuilder.__init__(default_name)`. -/
def TemplateBuilder.init (defaultName : String) : TemplateBuilder :=
  { name := defaultName
    description := ""
    startTime := none
    events := []
    prayerDurations := []
    prayerOverrides := []
    blockCounter := 1 }

/-- `_consume_prayer_setting`: parse a `prayer_durations.<p>:` or
`prayer_overrides.<p>:` header line. -/
def consumePrayerSetting (b : TemplateBuilder) (header : String) (lineno : Nat)
    (durationsTarget : Bool) : Except PyErr TemplateBuilder :=
  if !pyContainsChar header ':' then
    .error (.parseError ("Line " ++ toString lineno ++ ": missing ':' in '" ++ header ++ "'"))
  else
    let p := splitFirstChar header ':'
    let value := pyStrip p.2
    let keyPart := splitFirstChar p.1 '.'
    let prayerKey0 := pyLower (pyStrip keyPart.2)
    let prayerKey := if prayerKey0 = "duhr" then "dhuhr" else prayerKey0
    if !canonicalPrayers.contains prayerKey then
      .error (.parseError ("Line " ++ toString lineno ++ ": unsupported prayer '" ++ prayerKey ++ "'"))
    else if value = "" then .ok b
    else if durationsTarget then
      .ok { b with prayerDurations := setKey b.prayerDurations prayerKey value }
    else
      .ok { b with prayerOverrides := setKey b.prayerOverrides prayerKey value }

/-- Python `str.find(c)` as a character index. -/
def pyFindChar (s : String) (c : Char) : Option Nat :=
  s.data.findIdx? (· = c)

/-- `_add_task`: attach a sub-task (with an optional bracketed occurrence
expression) to the current event; fails when no event exists yet. -/
def addTask (b : TemplateBuilder) (content : String) (lineno : Nat) :
    Except PyErr TemplateBuilder :=
  match b.events.getLast? with
  | none => .error (.parseError ("Line " ++ toString lineno ++ ": task specified before any event"))
  | some lastEvent => do
    let body := pyStrip (pyDrop content 1)
    let r ←
      if pyStartsWith body "[" then
        match pyFindChar body ']' with
        | none =>
          throw (.parseError ("Line " ++ toString lineno ++ ": malformed occurrences block"))
        | some closing => do
          let expr := pyStrip (String.mk ((body.data.take closing).drop 1))
          let body2 := pyStrip (String.mk (body.data.drop (closing + 1)))
          if expr = "" then pure ((none : Option Int), body2)
          else do
            let n ← evalOccurrenceExpression expr (parseOccLiteral expr)
            pure (some n, body2)
      else pure ((none : Option Int), body)
    let ln := splitTaskLabelAndNote r.2
    let task : Task :=
      { label := if ln.1 = "" then "Task" else ln.1
        note := ln.2
        totalOccurrences := r.1
        remainingOccurrences := r.1 }
    .ok { b with events := b.events.dropLast ++ [lastEvent.withTasks (lastEvent.tasks ++ [task])] }

/-- `_add_relative_event`: a duration token followed by the event name;
a name whose first word is a prayer name is promoted to a PrayerEvent. -/
def addRelativeEvent (b : TemplateBuilder) (tokens : List String) (content : String)
    (lineno : Nat) : Except PyErr TemplateBuilder :=
  match tokens with
  | [] => .error (.parseError ("Line " ++ toString lineno ++ ": missing duration token"))
  | durationToken :: _ =>
    if !isDurationToken durationToken then
      .error (.parseError ("Line " ++ toString lineno ++ ": '" ++ durationToken ++ "' is not a duration"))
    else do
      let duration ← durationTokenToTimedelta durationToken
      let nm := pyStrip (pyDrop content (pyLen durationToken))
      let name := if nm = "" then "Block " ++ toString b.blockCounter else nm
      let firstWord := (splitWS (pyLower (pyStrip name))).headD ""
      let event : Event :=
        if isPrayerToken firstWord then
          .prayerEvent name duration false [] (normalizePrayerToken firstWord) none
        else .relative name duration true []
      .ok { b with events := b.events ++ [event], blockCounter := b.blockCounter + 1 }

/-- The event name of the fixed/prayer-bound builders: the joined remaining
tokens, or the `Thabbat <n>` fallback. -/
def thabbatName (b : TemplateBuilder) (rest : List String) : String :=
  let remaining := pyStrip (pyJoin " " rest)
  if remaining = "" then "Thabbat " ++ toString b.blockCounter else remaining

/-- `_add_fixed_event` (qalib.py lines 269-292): two time tokens give the
anchor and the end; the duration wraps past midnight when non-positive; a
prayer-named event is promoted to a PrayerEvent carrying the anchor. -/
def addFixedEvent (b : TemplateBuilder) (t0 t1 : String) (rest : List String) :
    Except PyErr TemplateBuilder := do
  let start ← parseHHMM t0
  let endT ← parseHHMM t1
  let name := thabbatName b rest
  let duration := durationBetween start endT
  let firstWord := (splitWS (pyLower (pyStrip name))).headD ""
  let event : Event :=
    if isPrayerToken firstWord then
      .prayerEvent name duration false [] (normalizePrayerToken firstWord) (some start)
    else .fixedEvent name duration false [] start
  .ok { b with events := b.events ++ [event], blockCounter := b.blockCounter + 1 }

/-- `_add_prayer_duration_event`: a prayer token and a `+duration` token
give a PrayerBoundEvent with the prayer as start reference and no end
reference. -/
def addPrayerDurationEvent (b : TemplateBuilder) (t0 t1 : String) (rest : List String)
    (lineno : Nat) : Except PyErr TemplateBuilder :=
  let durationToken := pyStrip (pyDrop t1 1)
  if durationToken = "" || !isDurationToken durationToken then
    .error (.parseError ("Line " ++ toString lineno ++ ": '" ++ t1 ++ "' is not a duration"))
  else do
    let duration ← durationTokenToTimedelta durationToken
    let name := thabbatName b rest
    let event : Event :=
      .prayerBoundEvent name duration false [] (some (.str (normalizePrayerToken t0))) none
    .ok { b with events := b.events ++ [event], blockCounter := b.blockCounter + 1 }

/-- `_add_prayer_range_event`: a `start..end` token gives a PrayerBoundEvent
with both references resolved by `_parse_time_or_prayer`; the end side is
mandatory. -/
def addPrayerRangeEvent (b : TemplateBuilder) (t0 : String) (rest : List String)
    (lineno : Nat) : Except PyErr TemplateBuilder := do
  let p := splitFirstStr t0 ".."
  let startRef ← parseTimeOrPrayer p.1
  let endRef ← parseTimeOrPrayer p.2
  match endRef with
  | none => .error (.parseError ("Line " ++ toString lineno ++ ": missing end bound in '" ++ t0 ++ "'"))
  | some _ => do
    let name := thabbatName b rest
    let event : Event := .prayerBoundEvent name 0 false [] startRef endRef
    .ok { b with events := b.events ++ [event], blockCounter := b.blockCounter + 1 }

/-- `_add_fixed_duration_event`: a time token and a `+duration` token give a
FixedEvent (or an anchored PrayerEvent when the name starts with one of the
five canonical prayer words — this branch has no `duhr` alias). -/
def addFixedDurationEvent (b : TemplateBuilder) (t0 t1 : String) (rest : List String)
    (lineno : Nat) : Except PyErr TemplateBuilder := do
  let start ← parseHHMM t0
  let durationToken := pyStrip (pyDrop t1 1)
  if durationToken = "" || !isDurationToken durationToken then
    .error (.parseError ("Line " ++ toString lineno ++ ": '" ++ t1 ++ "' is not a duration"))
  else do
    let duration ← durationTokenToTimedelta durationToken
    let name := thabbatName b rest
    let firstWord := (splitWS (pyLower (pyStrip name))).headD ""
    let event : Event :=
      if canonicalPrayers.contains firstWord then
        .prayerEvent name duration false [] (pyTitleWord firstWord) (some start)
      else .fixedEvent name duration false [] start
    .ok { b with events := b.events ++ [event], blockCounter := b.blockCounter + 1 }

/-- `_TemplateBuilder.consume(line, lineno)`: the line-classification
cascade of the Qalib grammar. -/
def consume (b : TemplateBuilder) (line : String) (lineno : Nat) :
    Except PyErr TemplateBuilder :=
  let stripped := pyStrip line
  if stripped = "" then .ok b
  else
    let header := if pyStartsWith stripped "#" then pyStrip (pyDrop stripped 1) else stripped
    let lower := pyLower header
    if pyStartsWith lower "name:" then
      .ok { b with name := pyStrip (splitFirstChar header ':').2 }
    else if pyStartsWith lower "description:" then
      let detail := pyStrip (splitFirstChar header ':').2
      .ok { b with description :=
        (if b.description = "" then "" else b.description ++ " ") ++ detail }
    else if pyStartsWith lower "prayer_durations." then consumePrayerSetting b header lineno true
    else if pyStartsWith lower "prayer_overrides." then consumePrayerSetting b header lineno false
    else if pyStartsWith stripped "#" then .ok b
    else
      let content := stripInlineComment stripped
      if content = "" then .ok b
      else if pyStartsWith content "-" then addTask b content lineno
      else
        let tokens := splitWS content
        match tokens with
        | t0 :: t1 :: rest =>
          if isTimeToken t0 && isTimeToken t1 then addFixedEvent b t0 t1 rest
          else if isTimeToken t0 && pyStartsWith t1 "+" then
            addFixedDurationEvent b t0 t1 rest lineno
          else if isPrayerToken t0 && pyStartsWith t1 "+" then
            addPrayerDurationEvent b t0 t1 rest lineno
          else if containsSubstr t0 ".." then addPrayerRangeEvent b t0 (t1 :: rest) lineno
          else addRelativeEvent b tokens content lineno
        | [t0] =>
          if containsSubstr t0 ".." then addPrayerRangeEvent b t0 [] lineno
          else if b.startTime = none && isTimeToken t0 then do
            let t ← parseHHMM t0
            .ok { b with startTime := some t }
          else addRelativeEvent b tokens content lineno
        | [] => addRelativeEvent b tokens content lineno

/-- `_TemplateBuilder.build()`. -/
def buildTemplate (b : TemplateBuilder) : Except PyErr DayTemplate :=
  match b.startTime with
  | none => .error (.parseError "Template missing wake-up start time")
  | some t =>
    .ok { name := if b.name = "" then "Unnamed Template" else b.name
          startTime := t
          events := b.events
          description := pyStrip b.description
          prayerDurations := b.prayerDurations
          prayerOverrides := b.prayerOverrides }

/-- The line loop of `QalibParser.parse`, with 1-based line numbers. -/
def consumeLines (b : TemplateBuilder) : List String → Nat → Except PyErr TemplateBuilder
  | [], _ => .ok b
  | l :: rest, lineno => do
    let b1 ← consume b l lineno
    consumeLines b1 rest (lineno + 1)

/-- `parse_qalib(raw, default_name=…)`: feed every line (split on newlines,
as `str.splitlines` does on the newline-separated text the caller hands in)
to the builder, then build the template. -/
def parseQalib (raw : String) (defaultName : String) : Except PyErr DayTemplate := do
  let b ← consumeLines (TemplateBuilder.init defaultName) (pyLines raw) 1
  buildTemplate b

/-! ### The validator (validation.py) -/

/-- `format_duration` from timeutils.py: whole minutes split by `divmod`
into hours and minutes, each zero-padded to two digits. -/
def pad2 (n : Int) : String :=
  if 0 ≤ n ∧ n < 10 then "0" ++ toString n else toString n

/-- `format_duration(timedelta)` on whole minutes. -/
def formatDuration (m : Int) : String :=
  pad2 (Int.ediv m 60) ++ ":" ++ pad2 (Int.emod m 60)

/-- Suffix test on the character list, mirroring Python `str.endswith`. -/
def pyEndsWith (s suf : String) : Bool :=
  pyStartsWith (String.mk s.data.reverse) (String.mk suf.data.reverse)

/-- What `getattr(prayers, key, None)` can hand back on the
`PrayerSchedule` dataclass: one of the slot fields as a time value, the
default `None` for a key that is no attribute at all, or a non-time
attribute (a bound method or interpreter machinery). -/
inductive PyAttr where
  | time (t : Int)
  | missing
  | nonTime
deriving DecidableEq, Repr

/-- `getattr(prayers, key, None)` on the `PrayerSchedule` dataclass: the six
slot fields yield times (the optional `sunrise` may itself hold `None`),
while the class's other real attributes — `to_dict`, `from_dict` and the
interpreter-supplied double-underscore names — are non-time objects on
which the caller's `datetime.combine` raises `TypeError`.  The exact
double-underscore inventory is interpreter-specific, so every key of that
shape is classified as such an attribute; no theorem below depends on the
classification of any individual double-underscore key (the safety
hypotheses exclude the whole class, and the concrete counterexample uses
`to_dict`). -/
def getattrPrayer (p : PrayerSchedule) (key : String) : PyAttr :=
  if key = "fajr" then .time p.fajr
  else if key = "dhuhr" then .time p.dhuhr
  else if key = "asr" then .time p.asr
  else if key = "maghrib" then .time p.maghrib
  else if key = "isha" then .time p.isha
  else if key = "sunrise" then
    match p.sunrise with
    | some t => .time t
    | none => .missing
  else if key = "to_dict" || key = "from_dict"
      || (pyStartsWith key "__" && pyEndsWith key "__") then .nonTime
  else .missing

/-- `TemplateValidator._resolve_ref` (validation.py lines 208-240): like the
scheduler's `resolve_ref` but looking the prayer key up with `getattr` on
the dataclass, so a key naming a non-time attribute makes the subsequent
`datetime.combine` raise an uncaught `TypeError`. -/
def resolveRefV (p : PrayerSchedule) : Option TimeRef → Except PyErr (Option Int)
  | none => .ok none
  | some (.clock t) => .ok (some t)
  | some (.str v) =>
    let raw := pyStrip v
    match parseOffsetToken raw with
    | some (prayer, minus, minutes) =>
      let key0 := pyLower (pyStrip prayer)
      let key := if key0 = "duhr" then "dhuhr" else key0
      match getattrPrayer p key with
      | .missing => .ok none
      | .nonTime => .error .typeError
      | .time base =>
        let delta : Int := digitsToNat minutes.toList
        .ok (some (base + (if minus then -delta else delta)))
    | none =>
      let key0 := pyLower raw
      let key := if key0 = "duhr" then "dhuhr" else key0
      match getattrPrayer p key with
      | .missing => .ok none
      | .nonTime => .error .typeError
      | .time base => .ok (some base)

/-- The resolution's value when it does not crash (`none` on a crash); the
projection the accumulator characterization below works with, tied to
`resolveRefV` by `resolveRefV_ok`. -/
def resolveRefVal (p : PrayerSchedule) (r : Option TimeRef) : Option Int :=
  match resolveRefV p r with
  | .ok v => v
  | .error _ => none

/-- The resolution of this reference does not raise. -/
def refSafe (p : PrayerSchedule) (r : Option TimeRef) : Bool :=
  match resolveRefV p r with
  | .ok _ => true
  | .error _ => false

/-- Every reference the validator resolves for this event is safe: the
start and end references of a `PrayerBound` event carrying an end
reference, and the prayer name of an unanchored `PrayerEvent`. -/
def eventRefsSafe (p : PrayerSchedule) : Event → Bool
  | .prayerBoundEvent _ _ _ _ sr er =>
    (match er with
     | some e => refSafe p sr && refSafe p (some e)
     | none => true)
  | .prayerEvent _ _ _ _ pr a =>
    (match a with
     | some _ => true
     | none => refSafe p (some (.str pr)))
  | _ => true

/-- Every reference resolved anywhere during `validate` is safe. -/
def templateRefsSafe (p : PrayerSchedule) (t : DayTemplate) : Bool :=
  t.events.all (eventRefsSafe p)

/-- `_validate_wake_time`: the wake time must be at least 20 minutes before
Fajr. -/
def validateWakeTime (t : DayTemplate) (p : PrayerSchedule) : List String :=
  if t.startTime > p.fajr - 20 then
    ["Wake-up time must be at least 20 minutes before Fajr. Adjust your template's start_time."]
  else []

/-- The (name, anchor, duration) view of a FixedEvent. -/
def fixedView : Event → Option (String × Int × Int)
  | .fixedEvent n d _ _ a => some (n, a, d)
  | _ => none

/-- Stable insertion placing the new element after every element whose key
is less than or equal (so, combined with `sortFixed`, equal-key elements
keep their original order exactly as Python's stable `sorted` does). -/
def insertByAnchor (x : String × Int × Int) :
    List (String × Int × Int) → List (String × Int × Int)
  | [] => [x]
  | y :: ys => if y.2.1 ≤ x.2.1 then y :: insertByAnchor x ys else x :: y :: ys

/-- `sorted(fixed_events, key=anchor)`: stable ascending sort by anchor. -/
def sortFixed (l : List (String × Int × Int)) : List (String × Int × Int) :=
  l.foldl (fun acc x => insertByAnchor x acc) []

/-- The overlap walk of `_validate_fixed_events`, carrying
`last_end = max(last_end, end)`. -/
def walkFixed : Option Int → List (String × Int × Int) → List String
  | _, [] => []
  | lastEnd, f :: rest =>
    let start := f.2.1
    let e := start + f.2.2
    let issue := match lastEnd with
      | some le =>
        if start < le then
          ["Fixed event '" ++ f.1 ++ "' overlaps with a previous Thabbat event."]
        else []
      | none => []
    let newLast := match lastEnd with
      | some le => max le e
      | none => e
    issue ++ walkFixed (some newLast) rest

/-- `_validate_fixed_events`. -/
def validateFixedEvents (t : DayTemplate) : List String :=
  walkFixed none (sortFixed (t.events.filterMap fixedView))

/-- The accumulator of `_validate_total_duration`: running total, the first
tipping event with its overage, the dry-run cursor, and the issues so far. -/
structure TotalAcc where
  total : Int
  overage : Option (String × Int)
  cursor : Int
  issues : List String
deriving DecidableEq, Repr

/-- The first-tipping-event update: record the event once, when the running
total first exceeds 24 hours. -/
def tipOver (overage : Option (String × Int)) (total : Int) (nm : String) :
    Option (String × Int) :=
  match overage with
  | some o => some o
  | none => if total > 1440 then some (nm, total - 1440) else none

/-- The message `Event '…' must have a positive duration.`. -/
def posMsg (nm : String) : String :=
  "Event '" ++ nm ++ "' must have a positive duration."

/-- One event of the `_validate_total_duration` loop (validation.py lines
80-124); reference resolution can raise `TypeError`. -/
def totalStep (p : PrayerSchedule) (acc : TotalAcc) (e : Event) :
    Except PyErr TotalAcc :=
  match e with
  | .prayerBoundEvent nm dur _ _ startRef endRef =>
    match endRef with
    | some er => do
      let s? ← resolveRefV p startRef
      let startDt := s?.getD acc.cursor
      let e? ← resolveRefV p (some er)
      match e? with
      | none => pure acc
      | some e0 =>
        let endDt := if e0 ≤ startDt then e0 + 1440 else e0
        let duration := endDt - startDt
        let issues := acc.issues ++ (if duration ≤ 0 then [posMsg nm] else [])
        let total := acc.total + duration
        pure { total := total, overage := tipOver acc.overage total nm,
               cursor := endDt, issues := issues }
    | none =>
      let issues := acc.issues ++ (if dur ≤ 0 then [posMsg nm] else [])
      let total := acc.total + dur
      pure { total := total, overage := tipOver acc.overage total nm,
             cursor := acc.cursor + dur, issues := issues }
  | .fixedEvent nm dur _ _ anchor =>
    let issues := acc.issues ++ (if dur ≤ 0 then [posMsg nm] else [])
    let total := acc.total + dur
    pure { total := total, overage := tipOver acc.overage total nm,
           cursor := anchor + dur, issues := issues }
  | .prayerEvent nm dur _ _ prayer anchor =>
    let issues := acc.issues ++ (if dur ≤ 0 then [posMsg nm] else [])
    match anchor with
    | some a =>
      let total := acc.total + dur
      pure { total := total, overage := tipOver acc.overage total nm,
             cursor := a + dur, issues := issues }
    | none => do
      let r? ← resolveRefV p (some (.str prayer))
      let startDt := r?.getD acc.cursor
      let total := acc.total + dur
      pure { total := total, overage := tipOver acc.overage total nm,
             cursor := startDt + dur, issues := issues }
  | .relative nm dur _ _ =>
    let issues := acc.issues ++ (if dur ≤ 0 then [posMsg nm] else [])
    let total := acc.total + dur
    pure { total := total, overage := tipOver acc.overage total nm,
           cursor := acc.cursor + dur, issues := issues }

/-- The crash-free projection of `totalStep`, with every resolution
replaced by its `resolveRefVal` value; agrees with `totalStep` on events
whose references are safe (`totalStep_ok`), and drives the first-tipping
characterization below. -/
def totalStepVal (p : PrayerSchedule) (acc : TotalAcc) (e : Event) : TotalAcc :=
  match e with
  | .prayerBoundEvent nm dur _ _ startRef endRef =>
    match endRef with
    | some er =>
      let startDt := (resolveRefVal p startRef).getD acc.cursor
      match resolveRefVal p (some er) with
      | none => acc
      | some e0 =>
        let endDt := if e0 ≤ startDt then e0 + 1440 else e0
        let duration := endDt - startDt
        let issues := acc.issues ++ (if duration ≤ 0 then [posMsg nm] else [])
        let total := acc.total + duration
        { total := total, overage := tipOver acc.overage total nm,
          cursor := endDt, issues := issues }
    | none =>
      let issues := acc.issues ++ (if dur ≤ 0 then [posMsg nm] else [])
      let total := acc.total + dur
      { total := total, overage := tipOver acc.overage total nm,
        cursor := acc.cursor + dur, issues := issues }
  | .fixedEvent nm dur _ _ anchor =>
    let issues := acc.issues ++ (if dur ≤ 0 then [posMsg nm] else [])
    let total := acc.total + dur
    { total := total, overage := tipOver acc.overage total nm,
      cursor := anchor + dur, issues := issues }
  | .prayerEvent nm dur _ _ prayer anchor =>
    let issues := acc.issues ++ (if dur ≤ 0 then [posMsg nm] else [])
    let startDt := match anchor with
      | some a => a
      | none => (resolveRefVal p (some (.str prayer))).getD acc.cursor
    let total := acc.total + dur
    { total := total, overage := tipOver acc.overage total nm,
      cursor := startDt + dur, issues := issues }
  | .relative nm dur _ _ =>
    let issues := acc.issues ++ (if dur ≤ 0 then [posMsg nm] else [])
    let total := acc.total + dur
    { total := total, overage := tipOver acc.overage total nm,
      cursor := acc.cursor + dur, issues := issues }

/-- The event loop of `_validate_total_duration`. -/
def totalLoop (p : PrayerSchedule) : TotalAcc → List Event → Except PyErr TotalAcc
  | acc, [] => .ok acc
  | acc, e :: rest => do
    let acc2 ← totalStep p acc e
    totalLoop p acc2 rest

/-- The big overage message of `_validate_total_duration`. -/
def overageMsg (total : Int) (nm : String) (amt : Int) : String :=
  "Template exceeds 24 hours of planned time. Total planned time is "
    ++ formatDuration total ++ ". '" ++ nm ++ "' pushes it over by "
    ++ formatDuration amt ++ "."

/-- The crash-free final accumulator of `_validate_total_duration` over a
template; equal to what the real loop computes whenever every reference is
safe (`totalLoop_ok`). -/
def totalAccOf (t : DayTemplate) (p : PrayerSchedule) : TotalAcc :=
  t.events.foldl (totalStepVal p)
    { total := 0, overage := none, cursor := t.startTime, issues := [] }

/-- The issue list `_validate_total_duration` appends from a final
accumulator. -/
def totalIssues (acc : TotalAcc) : List String :=
  acc.issues ++
    (if acc.total > 1440 then
      match acc.overage with
      | some o => [overageMsg acc.total o.1 o.2]
      | none => ["Template exceeds 24 hours of planned time."]
    else [])

/-- `_validate_total_duration` (validation.py lines 68-134). -/
def validateTotalDuration (t : DayTemplate) (p : PrayerSchedule) :
    Except PyErr (List String) := do
  let acc ← totalLoop p
    { total := 0, overage := none, cursor := t.startTime, issues := [] } t.events
  pure (totalIssues acc)

/-- The successor of a canonical prayer in the order Fajr < Dhuhr < Asr <
Maghrib < Isha, as `_validate_prayer_bounds` computes it from
`prayer_order.index` and the `prayer_times` dictionary. -/
def nextPrayerTime (p : PrayerSchedule) (key : String) : Option Int :=
  if key = "fajr" then some p.dhuhr
  else if key = "dhuhr" then some p.asr
  else if key = "asr" then some p.maghrib
  else if key = "maghrib" then some p.isha
  else none

/-- `_resolve_prayer_bound_duration`. -/
def resolvePrayerBoundDuration (p : PrayerSchedule) (startRef endRef : Option TimeRef)
    (dur : Int) (fallbackStart : Int) : Except PyErr (Option Int) := do
  let s? ← resolveRefV p startRef
  let start := s?.getD fallbackStart
  let endD : Option Int ← match endRef with
    | some _ => resolveRefV p endRef
    | none => pure none
  match endD with
  | none =>
    if dur ≤ 0 then pure none
    else
      let e0 := start + dur
      pure (some ((if e0 ≤ start then e0 + 1440 else e0) - start))
  | some e0 => pure (some ((if e0 ≤ start then e0 + 1440 else e0) - start))

/-- The issues `_validate_prayer_bounds` produces for one event (the
anchored-prayer checks read the plain `prayer_times` dictionary and cannot
raise; the prayer-bound range check resolves references). -/
def boundsIssues (p : PrayerSchedule) (startT : Int) (e : Event) :
    Except PyErr (List String) :=
  match e with
  | .prayerEvent _ dur _ _ prayer (some a) =>
    let key0 := pyLower (pyStrip prayer)
    let key := if key0 = "duhr" then "dhuhr" else key0
    match prayerTimeLookup p key with
    | none => .ok []
    | some base =>
      let i1 :=
        if a < base then
          ["Prayer '" ++ prayer ++ "' is scheduled before its calculated start time."]
        else []
      let i2 := match nextPrayerTime p key with
        | some nxt =>
          (if a ≥ nxt then
            ["Prayer '" ++ prayer ++ "' must be before the next prayer time."]
          else [])
          ++ (if dur ≠ 0 ∧ a + dur > nxt then
            ["Prayer '" ++ prayer ++ "' exceeds the next prayer window."]
          else [])
        | none => []
      .ok (i1 ++ i2)
  | .prayerBoundEvent nm dur _ _ startRef (some er) => do
    let d? ← resolvePrayerBoundDuration p startRef (some er) dur startT
    match d? with
    | some d =>
      if d ≤ 0 then
        pure ["Event '" ++ nm ++ "' has an invalid prayer-bound range."]
      else pure []
    | none => pure []
  | _ => .ok []

/-- The event loop of `_validate_prayer_bounds`, in template order. -/
def boundsLoop (p : PrayerSchedule) (startT : Int) :
    List Event → Except PyErr (List String)
  | [] => .ok []
  | e :: rest => do
    let i ← boundsIssues p startT e
    let r ← boundsLoop p startT rest
    pure (i ++ r)

/-- `_validate_prayer_bounds` (validation.py lines 136-187). -/
def validatePrayerBounds (t : DayTemplate) (p : PrayerSchedule) :
    Except PyErr (List String) :=
  boundsLoop p t.startTime t.events

/-- The `fixed_refs` list of `_warn_relative_ranges`: names with timestamps
of fixed events and of prayer events (anchored or resolved). -/
def fixedRefsOf (p : PrayerSchedule) : List Event → Except PyErr (List (String × Int))
  | [] => .ok []
  | e :: rest => do
    let x : List (String × Int) ← (match e with
      | .fixedEvent nm _ _ _ a => pure [(nm, a)]
      | .prayerEvent nm _ _ _ pr anchor =>
        (match anchor with
         | some a => pure [(nm, a)]
         | none => do
           let r? ← resolveRefV p (some (.str pr))
           match r? with
           | some r => pure [(nm, r)]
           | none => pure [])
      | _ => pure [])
    let r ← fixedRefsOf p rest
    pure (x ++ r)

/-- The event walk of `_warn_relative_ranges`, carrying the dry-run cursor. -/
def warnWalk (p : PrayerSchedule) (refs : List (String × Int)) :
    Int → List Event → Except PyErr (List String)
  | _, [] => .ok []
  | cursor, e :: rest =>
    match e with
    | .prayerBoundEvent nm dur _ _ startRef endRef =>
      match endRef with
      | some er => do
        let s? ← resolveRefV p startRef
        let start := s?.getD cursor
        let e? ← resolveRefV p (some er)
        match e? with
        | none => warnWalk p refs cursor rest
        | some e0 =>
          let w1 :=
            if e0 ≤ start then
              ["Event '" ++ nm ++ "' spans midnight in its '..' range; review for overlaps."]
            else []
          let endD := if e0 ≤ start then e0 + 1440 else e0
          let w2 := match refs.find? (fun r => start ≤ r.2 && r.2 < endD) with
            | some r =>
              ["Event '" ++ nm ++ "' overlaps with '" ++ r.1 ++ "' due to its '..' range."]
            | none => []
          let tail ← warnWalk p refs endD rest
          pure (w1 ++ w2 ++ tail)
      | none => warnWalk p refs (cursor + dur) rest
    | .fixedEvent _ dur _ _ a => warnWalk p refs (a + dur) rest
    | .prayerEvent _ dur _ _ pr anchor =>
      match anchor with
      | none => do
        let r? ← resolveRefV p (some (.str pr))
        match r? with
        | some r => warnWalk p refs (r + dur) rest
        | none => warnWalk p refs (cursor + dur) rest
      | some a => warnWalk p refs (a + dur) rest
    | .relative _ dur _ _ => warnWalk p refs (cursor + dur) rest

/-- `_warn_relative_ranges`. -/
def warnRelativeRanges (t : DayTemplate) (p : PrayerSchedule) :
    Except PyErr (List String) := do
  let refs ← fixedRefsOf p t.events
  warnWalk p refs t.startTime t.events

/-- How `TemplateValidator.validate` can fail: a `TemplateValidationError`
raised deliberately with the collected issues, or an exception that escapes
one of the checks uncaught (here always the `TypeError` from reference
resolution). -/
inductive ValidateError where
  | uncaught (e : PyErr)
  | validationError (issues : List String)
deriving DecidableEq, Repr

/-- `TemplateValidator.validate(template, prayers)`: run the four hard
checks in order (wake time, prayer bounds, fixed events, total duration),
then the warning pass, and only then raise a `TemplateValidationError`
carrying the whole issue list when any issues exist, otherwise return the
warnings; an exception inside any check escapes first. -/
def validate (t : DayTemplate) (p : PrayerSchedule) :
    Except ValidateError (List String) :=
  let issues1 := validateWakeTime t p
  match validatePrayerBounds t p with
  | .error e => .error (.uncaught e)
  | .ok issues2 =>
    let issues3 := validateFixedEvents t
    match validateTotalDuration t p with
    | .error e => .error (.uncaught e)
    | .ok issues4 =>
      match warnRelativeRanges t p with
      | .error e => .error (.uncaught e)
      | .ok warnings =>
        let issues := issues1 ++ issues2 ++ issues3 ++ issues4
        if issues = [] then .ok warnings else .error (.validationError issues)

/-! ### Shared concrete fixtures -/

/-- The prayer schedule of the spec's worked example: Fajr 05:00, Dhuhr
12:30, Asr 15:30, Maghrib 18:05, Isha 19:45. -/
def exampleSchedule : PrayerSchedule :=
  { fajr := 300, dhuhr := 750, asr := 930, maghrib := 1085, isha := 1185 }

/-- The prayer durations of the spec's worked example: Fajr 10 minutes and
the config defaults for the rest. -/
def exampleDurations : PrayerDurations :=
  { fajr := 10, dhuhr := 15, asr := 15, maghrib := 20, isha := 20 }

/-! ### Claim C3: the worked scheduling example -/

/-- The template of the spec's worked example: start 05:00, one relative
30-minute event named Warmup. -/
def c3Template : DayTemplate :=
  { name := "C3", startTime := 300, events := [.relative "Warmup" 30 true []] }

/-- A template whose only event is a PrayerBound event with an unrecognized
start reference. -/
def c5Template : DayTemplate :=
  { name := "C5", startTime := 240,
    events := [.prayerBoundEvent "Mystery" 30 false [] (some (.str "Bogus")) none] }

/-- The accumulator of `_validate_total_duration` after the first `k`
template events. -/
def totalAccUpTo (t : DayTemplate) (p : PrayerSchedule) (k : Nat) : TotalAcc :=
  (t.events.take k).foldl (totalStepVal p)
    { total := 0, overage := none, cursor := t.startTime, issues := [] }

/-- All running totals up to the `k`-th prefix stay within 24 hours. -/
def goodUpTo (t : DayTemplate) (p : PrayerSchedule) (k : Nat) : Prop :=
  ∀ j ≤ k, (totalAccUpTo t p j).total ≤ 1440

/-- The C7 counterexample template: the over-24-hours pair of events plus a
prayer-bound event whose end reference names the dataclass method
`to_dict`, so validation crashes before it can raise. -/
def c7BadTemplate : DayTemplate :=
  { name := "C7bad", startTime := 240,
    events := [.relative "Sleepless" 1380 true [], .relative "Study" 70 true [],
               .prayerBoundEvent "Vigil" 0 false [] none (some (.str "to_dict"))] }

/-- The spec's C7 example: 23 hours of Sleepless, then 70 minutes of Study,
for a total of 24 hours 10 minutes. -/
def c7Template : DayTemplate :=
  { name := "TooLong", startTime := 240,
    events := [.relative "Sleepless" 1380 true [], .relative "Study" 70 true []] }

def labelOfEvent : Event → Option String
  | .prayerEvent _ _ _ _ p _ => some p
  | _ => none

def prayerLabels (plan : List ScheduledEvent) : List String :=
  plan.filterMap (fun it => labelOfEvent it.event)

def isPrayerItem (it : ScheduledEvent) : Bool :=
  (labelOfEvent it.event).isSome

def isPrayerLabeled (lbl : String) (it : ScheduledEvent) : Bool :=
  match labelOfEvent it.event with
  | some p => p == lbl
  | none => false

def matchesTarget (target : String) (it : ScheduledEvent) : Bool :=
  match it.event with
  | .prayerEvent _ _ _ _ p _ => decide (pyLower (pyStrip p) = target)
  | _ => false

def canonLabels : List String := ["Fajr", "Dhuhr", "Asr", "Maghrib", "Isha"]

/-- The template of claim C4: a relative Prep event of duration `d`, then
the prayer placeholder parsed from `.20 Fajr`. -/
def c4Template (s d : Int) : DayTemplate :=
  { name := "C4", startTime := s,
    events := [.relative "Prep" d true [], .prayerEvent "Fajr" 20 false [] "Fajr" none] }

/-- Events written with a bare duration (the only template form with no
anchor of its own). -/
def isRelative : Event → Bool
  | .relative _ _ _ _ => true
  | _ => false

/-- The pending prayer slots are in order, with nonnegative durations, and
each slot ends no later than the next begins. -/
def slotsChained : List PrayerSlot → Bool
  | [] => true
  | [s] => decide (0 ≤ s.duration)
  | a :: b :: rest =>
    decide (0 ≤ a.duration) && decide (a.start + a.duration ≤ b.start)
      && slotsChained (b :: rest)

/-- The cursor does not go past the next pending prayer slot's start. -/
def cursorBelow (c : Int) : List PrayerSlot → Bool
  | [] => true
  | s :: _ => decide (c ≤ s.start)

/-- The scheduled items form a chain from position `c`: each item starts no
earlier than `c`, extends forward, and hands its end to the next item. -/
def chainFrom (c : Int) : List ScheduledEvent → Prop
  | [] => True
  | a :: rest => c ≤ a.start ∧ a.start ≤ a.stop ∧ chainFrom a.stop rest

/-- The position where a chain of scheduled items ends (`c` if empty). -/
def chainEnd (c : Int) : List ScheduledEvent → Int
  | [] => c
  | a :: rest => chainEnd a.stop rest

/-- A fixed event anchored before the already flushed Fajr entry: the C1
counterexample template. -/
def c1BadTemplate : DayTemplate :=
  { name := "C1", startTime := 600, events := [.fixedEvent "X" 60 false [] 290] }

/-- An all-relative template that satisfies the amended C1 hypotheses. -/
def c1GoodTemplate : DayTemplate :=
  { name := "C1ok", startTime := 240,
    events := [.relative "A" 30 true [], .relative "B" 700 true []] }

/-- C3 counterexample: on the spec's example input (start 05:00, Warmup
30m, Fajr at 05:00 with a 10-minute duration) the plan is not
`[Warmup 05:00-05:10, Fajr 05:10-05:20, Warmup 05:20-05:30]`: the flush
step runs before the event, so the first scheduled item is the Fajr prayer
at 05:00-05:10 and the Warmup block follows unsplit at 05:10-05:40. -/
theorem c3_counterexample :
    ((buildPlan c3Template 0 exampleSchedule exampleDurations).items.map
        fun it => (it.start, it.stop)).take 3
      ≠ [((300 : Int), (310 : Int)), (310, 320), (320, 330)]
    ∧ ((buildPlan c3Template 0 exampleSchedule exampleDurations).items.map
        fun it => it.event.name).take 2 = ["Fajr Prayer", "Warmup"] := by
  decide

/-- C3 amended: because Fajr (05:00) is already due when the flush step
runs before the Warmup event (the flush schedules a slot whenever its start
is at most the cursor), build_plan schedules Fajr first at 05:00-05:10 and
then the whole relative event unsplit at 05:10-05:40, followed by the
remaining prayers at their own times. -/
theorem c3_plan :
    ((buildPlan c3Template 0 exampleSchedule exampleDurations).items.map
      fun it => (it.event.name, it.start, it.stop)) =
    [("Fajr Prayer", 300, 310), ("Warmup", 310, 340), ("Dhuhr Prayer", 750, 765),
     ("Asr Prayer", 930, 945), ("Maghrib Prayer", 1085, 1105),
     ("Isha Prayer", 1185, 1205)] := by
  decide

/-! ### Claim C5: unresolvable references -/

/-- C5 counterexample: `resolve_ref` does return no timestamp for the
unknown prayer name Bogus, but the scheduler does not fall back to the
cursor for a PrayerBound start reference: the event is dropped entirely
(the plan holds only the five auto-scheduled prayers, no Mystery entry). -/
theorem c5_counterexample :
    resolveRef exampleSchedule (some (.str "Bogus")) = none
    ∧ ((buildPlan c5Template 0 exampleSchedule exampleDurations).items.filter
        fun it => it.event.name = "Mystery") = []
    ∧ (buildPlan c5Template 0 exampleSchedule exampleDurations).items.length = 5 := by
  decide

/-- C5 amended: a reference whose string is neither a prayer-offset token
nor a known prayer name resolves to no timestamp, and a PrayerBound event
whose explicit start reference is such a string is skipped by
`_schedule_event` (the state, hence the plan, is left unchanged — the event
is not scheduled at the cursor); build_plan itself still never fails. -/
theorem c5_unresolvable_skips (sched : PrayerSchedule) (s : String)
    (h1 : parseOffsetToken (pyStrip s) = none)
    (h2 : prayerTimeLookup sched (pyLower (pyStrip s)) = none) :
    resolveRef sched (some (.str s)) = none
    ∧ ∀ (st : SchedState) (nm : String) (dur : Int) (fl : Bool) (tks : List Task)
        (endRef : Option TimeRef), st.schedule = sched →
        scheduleEvent st (.prayerBoundEvent nm dur fl tks (some (.str s)) endRef) = st := by
  have hres : resolveRef sched (some (.str s)) = none := by
    simp only [resolveRef, h1, h2]
  refine ⟨hres, ?_⟩
  intro st nm dur fl tks endRef hsched
  simp only [scheduleEvent, hsched, hres]

/-- C5 witness: the amended statement at the concrete name Bogus and the
example schedule. -/
theorem c5_witness :
    resolveRef exampleSchedule (some (.str "Bogus")) = none
    ∧ scheduleEvent
        { template := c5Template, schedule := exampleSchedule, cursor := 240,
          pending := prayerSlotsOf exampleSchedule exampleDurations, plan := [] }
        (.prayerBoundEvent "Mystery" 30 false [] (some (.str "Bogus")) none) =
      { template := c5Template, schedule := exampleSchedule, cursor := 240,
        pending := prayerSlotsOf exampleSchedule exampleDurations, plan := [] } := by
  have h := c5_unresolvable_skips exampleSchedule "Bogus" (by decide) (by decide)
  exact ⟨h.1, h.2 _ "Mystery" 30 false [] none rfl⟩

/-! ### Claim C6: occurrence expressions -/

/-- C6 counterexample: the expressions `3/2` and `0.5` evaluate to positive
values that are not positive integers, yet `_eval_occurrence_expression`
succeeds on both (truncating to 1 and 0 respectively) instead of failing
with a ParseError. -/
theorem c6_counterexample :
    evalOccurrenceExpression "3/2" (.divide (.num 3) (.num 2)) = .ok 1
    ∧ evalOccurrenceExpression "0.5" (.num ((1 : ℚ) / 2)) = .ok 0 := by
  constructor
  · have hf : (⌊(3 : ℚ) / 2⌋ : Int) = 1 := by
      rw [Int.floor_eq_iff]
      constructor <;> norm_num
    simp only [evalOccurrenceExpression, evalNode, bind, Except.bind, pure, Except.pure]
    norm_num [hf]
  · have hf : (⌊(1 : ℚ) / 2⌋ : Int) = 0 := by
      rw [Int.floor_eq_iff]
      constructor <;> norm_num
    simp only [evalOccurrenceExpression, evalNode]
    norm_num [hf]

/-- C6 amended: evaluation of a bracketed occurrence expression succeeds
exactly when the expression is built from the allowed operators over
numeric literals (no unsupported node), divides by no zero, and evaluates
to a strictly positive value — integrality is not required, the result is
truncated by `int()`; non-positive values and unsupported nodes fail with a
ParseError, zero divisors with an uncaught ZeroDivisionError. -/
theorem c6_occurrence_success_iff (raw : String) (e : OccExpr) :
    (∃ n, evalOccurrenceExpression raw e = .ok n)
      ↔ (∃ q, evalNode e = .ok q ∧ 0 < q) := by
  unfold evalOccurrenceExpression
  cases h : evalNode e with
  | error err =>
    cases err <;> simp
  | ok q =>
    by_cases hq : q ≤ 0
    · simp [hq, not_lt.mpr hq]
    · simp [hq, lt_of_not_le hq]

/-! ### Claim C10: a malformed time token escapes ParseError -/

/-- C10: the line `25:70 26:80 X` passes the `_TIME_TOKEN` regex, so the
parser calls `parse_hhmm`, whose range check raises a bare `ValueError`
(not the documented `QalibParseError`), which propagates out of `parse`. -/
theorem c10_value_error_not_parse_error :
    parseQalib "05:00\n25:70 26:80 X" "daily"
      = .error (.valueError "Invalid time value: 25:70")
    ∧ ∀ msg, (Except.error (PyErr.valueError "Invalid time value: 25:70")
        : Except PyErr DayTemplate) ≠ .error (.parseError msg) := by
  constructor
  · rfl
  · intro msg h
    injection h with h2
    cases h2

/-! ### Claim C8: two time tokens give a Fixed event -/

/-- C8: an event line whose first two whitespace tokens are time tokens and
whose name does not begin with a prayer word is parsed by `_add_fixed_event`
into a FixedEvent anchored at the first time, with duration second minus
first, wrapping by one day whenever that difference is non-positive. -/
theorem c8_fixed_event_parse (b : TemplateBuilder) (t0 t1 : String) (rest : List String)
    (s e : Int) (h0 : parseHHMM t0 = .ok s) (h1 : parseHHMM t1 = .ok e)
    (hname : isPrayerToken ((splitWS (pyLower (pyStrip (thabbatName b rest)))).headD "")
      = false) :
    addFixedEvent b t0 t1 rest =
      .ok { b with
            events := b.events ++
              [.fixedEvent (thabbatName b rest) (durationBetween s e) false [] s]
            blockCounter := b.blockCounter + 1 }
    ∧ durationBetween s e = (if e ≤ s then e + 1440 - s else e - s) := by
  constructor
  · simp only [addFixedEvent, h0, h1, bind, Except.bind, hname, Bool.false_eq_true,
      if_false]
  · rfl

/-- C8 witness: the spec's example line `7:00 07:45 Breakfast` gives a
Fixed event with anchor 07:00 (420 minutes) and duration 45 minutes, both
through `_add_fixed_event` (via the theorem) and through the full `consume`
dispatch. -/
theorem c8_witness :
    (addFixedEvent (TemplateBuilder.init "daily") "7:00" "07:45" ["Breakfast"] =
      .ok { TemplateBuilder.init "daily" with
            events := (TemplateBuilder.init "daily").events ++
              [.fixedEvent (thabbatName (TemplateBuilder.init "daily") ["Breakfast"])
                (durationBetween 420 465) false [] 420]
            blockCounter := (TemplateBuilder.init "daily").blockCounter + 1 }
      ∧ durationBetween 420 465 = (if (465 : Int) ≤ 420 then 465 + 1440 - 420 else 465 - 420))
    ∧ consume (TemplateBuilder.init "daily") "7:00 07:45 Breakfast" 2 =
      .ok { name := "daily", description := "", startTime := none,
            events := [.fixedEvent "Breakfast" 45 false [] 420],
            prayerDurations := [], prayerOverrides := [], blockCounter := 2 } :=
  ⟨c8_fixed_event_parse (TemplateBuilder.init "daily") "7:00" "07:45" ["Breakfast"]
      420 465 rfl rfl rfl, by rfl⟩

/-! ### Claim C9: build_plan is deterministic and mutates no input -/

theorem scheduleEvent_readonly (st : SchedState) (e : Event) :
    (scheduleEvent st e).template = st.template
    ∧ (scheduleEvent st e).schedule = st.schedule := by
  cases e <;> simp only [scheduleEvent, applyLoop, pushPrayersAfter] <;>
    (repeat' split) <;> simp [applyLoop, pushPrayersAfter]

theorem stepEvent_readonly (st : SchedState) (e : Event) :
    (stepEvent st e).template = st.template ∧ (stepEvent st e).schedule = st.schedule := by
  unfold stepEvent
  constructor
  · rw [(scheduleEvent_readonly _ _).1]
    rfl
  · rw [(scheduleEvent_readonly _ _).2]
    rfl

theorem foldl_stepEvent_readonly (events : List Event) (st : SchedState) :
    (events.foldl stepEvent st).template = st.template
    ∧ (events.foldl stepEvent st).schedule = st.schedule := by
  induction events generalizing st with
  | nil => exact ⟨rfl, rfl⟩
  | cons e es ih =>
    simp only [List.foldl_cons]
    refine ⟨?_, ?_⟩
    · rw [(ih _).1, (stepEvent_readonly _ _).1]
    · rw [(ih _).2, (stepEvent_readonly _ _).2]

/-- C9: `build_plan` is deterministic (in the embedding it is a pure
function of the template, the plan date and the schedule, so two runs on
identical inputs are equal), and the final scheduler state still carries
the template and the schedule unchanged: no statement of the run writes to
either input (the plan stores `replace`-copies, and the prayer entries it
corrects in place are the scheduler's own objects). -/
theorem c9_deterministic_pure (t : DayTemplate) (pd : Int) (s : PrayerSchedule)
    (d : PrayerDurations) :
    buildPlan t pd s d = buildPlan t pd s d
    ∧ (buildPlanState t s d).template = t
    ∧ (buildPlanState t s d).schedule = s := by
  refine ⟨rfl, ?_, ?_⟩
  · show (applyLoop _ _).template = t
    rw [show ∀ (a : SchedState) l, (applyLoop a l).template = a.template from fun a l => rfl]
    exact (foldl_stepEvent_readonly _ _).1
  · show (applyLoop _ _).schedule = s
    rw [show ∀ (a : SchedState) l, (applyLoop a l).schedule = a.schedule from fun a l => rfl]
    exact (foldl_stepEvent_readonly _ _).2

/-! ### Claim C7: the 24-hour total check -/

theorem totalStep_shape (p : PrayerSchedule) (acc : TotalAcc) (e : Event) :
    totalStepVal p acc e = acc ∨
    ∃ d, (totalStepVal p acc e).total = acc.total + d
      ∧ (totalStepVal p acc e).overage = tipOver acc.overage (acc.total + d) e.name := by
  cases e with
  | relative nm dur fl tks => exact Or.inr ⟨dur, rfl, rfl⟩
  | fixedEvent nm dur fl tks a => exact Or.inr ⟨dur, rfl, rfl⟩
  | prayerEvent nm dur fl tks pr a =>
    cases a with
    | none => exact Or.inr ⟨dur, rfl, rfl⟩
    | some a => exact Or.inr ⟨dur, rfl, rfl⟩
  | prayerBoundEvent nm dur fl tks sr er =>
    cases er with
    | none => exact Or.inr ⟨dur, rfl, rfl⟩
    | some er =>
      simp only [totalStepVal]
      cases resolveRefVal p (some er) with
      | none => exact Or.inl rfl
      | some e0 => exact Or.inr ⟨_, rfl, rfl⟩

theorem totalAccUpTo_zero (t : DayTemplate) (p : PrayerSchedule) :
    totalAccUpTo t p 0
      = { total := 0, overage := none, cursor := t.startTime, issues := [] } := rfl

theorem totalAccUpTo_succ (t : DayTemplate) (p : PrayerSchedule) (k : Nat)
    (hk : k < t.events.length) :
    totalAccUpTo t p (k + 1) = totalStepVal p (totalAccUpTo t p k) (t.events.get ⟨k, hk⟩) := by
  unfold totalAccUpTo
  rw [List.take_succ, List.foldl_append]
  simp [List.getElem?_eq_getElem hk, List.get_eq_getElem]

theorem totalAccUpTo_stable (t : DayTemplate) (p : PrayerSchedule) (k : Nat)
    (hk : t.events.length ≤ k) :
    totalAccUpTo t p (k + 1) = totalAccUpTo t p k := by
  unfold totalAccUpTo
  rw [List.take_of_length_le (by omega), List.take_of_length_le hk]

/-- The `overage_event`/`overage_amount` pair of `_validate_total_duration`
records exactly the first event whose addition pushes the running total
over 24 hours, together with the amount at that moment. -/
theorem overage_charact (t : DayTemplate) (p : PrayerSchedule) : ∀ k,
    ((totalAccUpTo t p k).overage = none ∧ goodUpTo t p k)
    ∨ (∃ kt, ∃ hk : kt < t.events.length, kt < k
        ∧ (totalAccUpTo t p k).overage
            = some ((t.events.get ⟨kt, hk⟩).name, (totalAccUpTo t p (kt + 1)).total - 1440)
        ∧ 1440 < (totalAccUpTo t p (kt + 1)).total
        ∧ goodUpTo t p kt) := by
  intro k
  induction k with
  | zero =>
    left
    refine ⟨rfl, ?_⟩
    intro j hj
    interval_cases j
    simp [totalAccUpTo_zero]
  | succ k ih =>
    by_cases hk : k < t.events.length
    · rcases ih with ⟨hnone, hgood⟩ | ⟨kt, hkt, hlt, hov, htip, hgoodkt⟩
      · rcases totalStep_shape p (totalAccUpTo t p k) (t.events.get ⟨k, hk⟩) with
          heq | ⟨d, htot, hovr⟩
        · left
          rw [totalAccUpTo_succ t p k hk]
          refine ⟨by rw [heq]; exact hnone, ?_⟩
          intro j hj
          rcases Nat.lt_or_ge j (k + 1) with hj2 | hj2
          · exact hgood j (by omega)
          · have hjk : j = k + 1 := by omega
            subst hjk
            rw [totalAccUpTo_succ t p k hk, heq]
            exact hgood k (le_refl k)
        · by_cases htp : 1440 < (totalAccUpTo t p k).total + d
          · right
            have hsucc := totalAccUpTo_succ t p k hk
            refine ⟨k, hk, by omega, ?_, ?_, hgood⟩
            · rw [hsucc, hovr, hnone, htot]
              simp only [tipOver]
              rw [if_pos htp]
            · rw [hsucc, htot]
              exact htp
          · left
            rw [totalAccUpTo_succ t p k hk]
            refine ⟨?_, ?_⟩
            · rw [hovr, hnone]
              simp only [tipOver]
              rw [if_neg htp]
            · intro j hj
              rcases Nat.lt_or_ge j (k + 1) with hj2 | hj2
              · exact hgood j (by omega)
              · have hjk : j = k + 1 := by omega
                subst hjk
                rw [totalAccUpTo_succ t p k hk, htot]
                omega
      · right
        refine ⟨kt, hkt, by omega, ?_, htip, hgoodkt⟩
        rw [totalAccUpTo_succ t p k hk]
        rcases totalStep_shape p (totalAccUpTo t p k) (t.events.get ⟨k, hk⟩) with
          heq | ⟨d, _, hovr⟩
        · rw [heq]
          exact hov
        · rw [hovr, hov]
          rfl
    · have hst := totalAccUpTo_stable t p k (by omega)
      rcases ih with ⟨hnone, hgood⟩ | ⟨kt, hkt, hlt, hov, htip, hgoodkt⟩
      · left
        rw [hst]
        refine ⟨hnone, ?_⟩
        intro j hj
        rcases Nat.lt_or_ge j (k + 1) with hj2 | hj2
        · exact hgood j (by omega)
        · have hjk : j = k + 1 := by omega
          subst hjk
          rw [hst]
          exact hgood k (le_refl k)
      · right
        exact ⟨kt, hkt, by omega, by rw [hst]; exact hov, htip, hgoodkt⟩

theorem totalAccOf_eq (t : DayTemplate) (p : PrayerSchedule) :
    totalAccOf t p = totalAccUpTo t p t.events.length := by
  unfold totalAccOf totalAccUpTo
  rw [List.take_length]

theorem resolveRefV_ok (p : PrayerSchedule) (r : Option TimeRef)
    (h : refSafe p r = true) : resolveRefV p r = .ok (resolveRefVal p r) := by
  unfold refSafe at h
  unfold resolveRefVal
  cases hres : resolveRefV p r with
  | ok v => rfl
  | error e => rw [hres] at h; simp at h

theorem totalStep_ok (p : PrayerSchedule) (acc : TotalAcc) (e : Event)
    (h : eventRefsSafe p e = true) :
    totalStep p acc e = .ok (totalStepVal p acc e) := by
  cases e with
  | relative nm dur fl tks => rfl
  | fixedEvent nm dur fl tks a => rfl
  | prayerEvent nm dur fl tks pr a =>
    cases a with
    | some a => rfl
    | none =>
      have hs : refSafe p (some (.str pr)) = true := by
        simpa [eventRefsSafe] using h
      simp only [totalStep, totalStepVal, resolveRefV_ok p _ hs, bind, Except.bind,
        pure, Except.pure]
  | prayerBoundEvent nm dur fl tks sr er =>
    cases er with
    | none => rfl
    | some er =>
      have h2 : refSafe p sr = true ∧ refSafe p (some er) = true := by
        simpa [eventRefsSafe, Bool.and_eq_true] using h
      simp only [totalStep, totalStepVal, resolveRefV_ok p sr h2.1,
        resolveRefV_ok p (some er) h2.2, bind, Except.bind, pure, Except.pure]
      cases resolveRefVal p (some er) <;> rfl

theorem totalLoop_ok (p : PrayerSchedule) (events : List Event) :
    ∀ acc, (∀ e ∈ events, eventRefsSafe p e = true) →
    totalLoop p acc events = .ok (events.foldl (totalStepVal p) acc) := by
  induction events with
  | nil => intro acc _; rfl
  | cons e rest ih =>
    intro acc hall
    have he := hall e (List.mem_cons_self e rest)
    have hrest : ∀ x ∈ rest, eventRefsSafe p x = true :=
      fun x hx => hall x (List.mem_cons_of_mem e hx)
    show (do
      let acc2 ← totalStep p acc e
      totalLoop p acc2 rest) = _
    rw [totalStep_ok p acc e he]
    simp only [bind, Except.bind, List.foldl_cons]
    exact ih (totalStepVal p acc e) hrest

theorem validateTotalDuration_ok (t : DayTemplate) (p : PrayerSchedule)
    (h : templateRefsSafe p t = true) :
    validateTotalDuration t p = .ok (totalIssues (totalAccOf t p)) := by
  have hall : ∀ e ∈ t.events, eventRefsSafe p e = true := by
    simpa [templateRefsSafe, List.all_eq_true] using h
  unfold validateTotalDuration
  rw [totalLoop_ok p t.events _ hall]
  rfl

theorem boundsIssues_ok (p : PrayerSchedule) (startT : Int) (e : Event)
    (h : eventRefsSafe p e = true) :
    ∃ l, boundsIssues p startT e = .ok l := by
  cases e with
  | relative nm dur fl tks => exact ⟨[], rfl⟩
  | fixedEvent nm dur fl tks a => exact ⟨[], rfl⟩
  | prayerEvent nm dur fl tks pr a =>
    cases a with
    | none => exact ⟨[], rfl⟩
    | some a =>
      simp only [boundsIssues]
      split
      · exact ⟨[], rfl⟩
      · exact ⟨_, rfl⟩
  | prayerBoundEvent nm dur fl tks sr er =>
    cases er with
    | none => exact ⟨[], rfl⟩
    | some er =>
      have h2 : refSafe p sr = true ∧ refSafe p (some er) = true := by
        simpa [eventRefsSafe, Bool.and_eq_true] using h
      have hr : ∃ v, resolvePrayerBoundDuration p sr (some er) dur startT = .ok v := by
        unfold resolvePrayerBoundDuration
        rw [resolveRefV_ok p sr h2.1, resolveRefV_ok p (some er) h2.2]
        simp only [bind, Except.bind]
        cases resolveRefVal p (some er) with
        | none =>
          by_cases hd : dur ≤ 0
          · exact ⟨none, by rw [if_pos hd]; rfl⟩
          · exact ⟨_, by rw [if_neg hd]; rfl⟩
        | some e0 => exact ⟨_, rfl⟩
      obtain ⟨v, hv⟩ := hr
      simp only [boundsIssues, hv, bind, Except.bind]
      cases v with
      | none => exact ⟨[], rfl⟩
      | some d =>
        by_cases hd : d ≤ 0
        · refine ⟨["Event '" ++ nm ++ "' has an invalid prayer-bound range."], ?_⟩
          show (if d ≤ 0 then
              (pure ["Event '" ++ nm ++ "' has an invalid prayer-bound range."]
                : Except PyErr (List String))
            else pure []) = _
          rw [if_pos hd]
          rfl
        · refine ⟨[], ?_⟩
          show (if d ≤ 0 then
              (pure ["Event '" ++ nm ++ "' has an invalid prayer-bound range."]
                : Except PyErr (List String))
            else pure []) = _
          rw [if_neg hd]
          rfl

theorem boundsLoop_ok (p : PrayerSchedule) (startT : Int) (events : List Event)
    (hall : ∀ e ∈ events, eventRefsSafe p e = true) :
    ∃ l, boundsLoop p startT events = .ok l := by
  induction events with
  | nil => exact ⟨[], rfl⟩
  | cons e rest ih =>
    obtain ⟨i, hi⟩ := boundsIssues_ok p startT e (hall e (List.mem_cons_self e rest))
    obtain ⟨r, hr⟩ := ih (fun x hx => hall x (List.mem_cons_of_mem e hx))
    refine ⟨i ++ r, ?_⟩
    show (do
      let i ← boundsIssues p startT e
      let r ← boundsLoop p startT rest
      pure (i ++ r)) = _
    rw [hi, hr]
    rfl

theorem fixedRefsOf_ok (p : PrayerSchedule) (events : List Event)
    (hall : ∀ e ∈ events, eventRefsSafe p e = true) :
    ∃ r, fixedRefsOf p events = .ok r := by
  induction events with
  | nil => exact ⟨[], rfl⟩
  | cons e rest ih =>
    obtain ⟨r, hr⟩ := ih (fun x hx => hall x (List.mem_cons_of_mem e hx))
    have hx : ∃ x, (match e with
      | .fixedEvent nm _ _ _ a => pure [(nm, a)]
      | .prayerEvent nm _ _ _ pr anchor =>
        (match anchor with
         | some a => pure [(nm, a)]
         | none => do
           let r? ← resolveRefV p (some (.str pr))
           match r? with
           | some r => pure [(nm, r)]
           | none => pure [])
      | _ => pure [] : Except PyErr (List (String × Int))) = .ok x := by
      cases e with
      | fixedEvent nm dur fl tks a => exact ⟨[(nm, a)], rfl⟩
      | relative nm dur fl tks => exact ⟨[], rfl⟩
      | prayerBoundEvent nm dur fl tks sr er => exact ⟨[], rfl⟩
      | prayerEvent nm dur fl tks pr anchor =>
        cases anchor with
        | some a => exact ⟨[(nm, a)], rfl⟩
        | none =>
          have hs : refSafe p (some (.str pr)) = true := by
            simpa [eventRefsSafe] using hall _ (List.mem_cons_self _ rest)
          simp only [resolveRefV_ok p _ hs, bind, Except.bind]
          cases resolveRefVal p (some (.str pr)) with
          | none => exact ⟨[], rfl⟩
          | some r0 => exact ⟨[(nm, r0)], rfl⟩
    obtain ⟨x, hx⟩ := hx
    refine ⟨x ++ r, ?_⟩
    show (do
      let x ← _
      let r ← fixedRefsOf p rest
      pure (x ++ r)) = _
    rw [hx, hr]
    rfl

theorem warnWalk_ok (p : PrayerSchedule) (refs : List (String × Int))
    (events : List Event) :
    ∀ cursor, (∀ e ∈ events, eventRefsSafe p e = true) →
    ∃ w, warnWalk p refs cursor events = .ok w := by
  induction events with
  | nil => intro cursor _; exact ⟨[], rfl⟩
  | cons e rest ih =>
    intro cursor hall
    have hrest : ∀ x ∈ rest, eventRefsSafe p x = true :=
      fun x hx => hall x (List.mem_cons_of_mem e hx)
    cases e with
    | relative nm dur fl tks => exact ih (cursor + dur) hrest
    | fixedEvent nm dur fl tks a => exact ih (a + dur) hrest
    | prayerEvent nm dur fl tks pr anchor =>
      cases anchor with
      | some a => exact ih (a + dur) hrest
      | none =>
        have hs : refSafe p (some (.str pr)) = true := by
          simpa [eventRefsSafe] using hall _ (List.mem_cons_self _ rest)
        show ∃ w, (do
          let r? ← resolveRefV p (some (.str pr))
          match r? with
          | some r => warnWalk p refs (r + dur) rest
          | none => warnWalk p refs (cursor + dur) rest) = .ok w
        rw [resolveRefV_ok p _ hs]
        simp only [bind, Except.bind]
        cases resolveRefVal p (some (.str pr)) with
        | none => exact ih (cursor + dur) hrest
        | some r => exact ih (r + dur) hrest
    | prayerBoundEvent nm dur fl tks sr er =>
      cases er with
      | none => exact ih (cursor + dur) hrest
      | some er =>
        have h2 : refSafe p sr = true ∧ refSafe p (some er) = true := by
          simpa [eventRefsSafe, Bool.and_eq_true] using hall _ (List.mem_cons_self _ rest)
        show ∃ w, (do
          let s? ← resolveRefV p sr
          let start := s?.getD cursor
          let e? ← resolveRefV p (some er)
          match e? with
          | none => warnWalk p refs cursor rest
          | some e0 =>
            let w1 :=
              if e0 ≤ start then
                ["Event '" ++ nm ++ "' spans midnight in its '..' range; review for overlaps."]
              else []
            let endD := if e0 ≤ start then e0 + 1440 else e0
            let w2 := match refs.find? (fun r : String × Int => start ≤ r.2 && r.2 < endD) with
              | some r =>
                ["Event '" ++ nm ++ "' overlaps with '" ++ r.1 ++ "' due to its '..' range."]
              | none => []
            do
              let tail ← warnWalk p refs endD rest
              pure (w1 ++ w2 ++ tail)) = .ok w
        rw [resolveRefV_ok p sr h2.1, resolveRefV_ok p (some er) h2.2]
        simp only [bind, Except.bind]
        cases resolveRefVal p (some er) with
        | none => exact ih cursor hrest
        | some e0 =>
          dsimp only
          obtain ⟨tail, htail⟩ := ih (if e0 ≤ (resolveRefVal p sr).getD cursor
            then e0 + 1440 else e0) hrest
          rw [htail]
          exact ⟨_, rfl⟩

theorem warnRelativeRanges_ok (t : DayTemplate) (p : PrayerSchedule)
    (h : templateRefsSafe p t = true) :
    ∃ w, warnRelativeRanges t p = .ok w := by
  have hall : ∀ e ∈ t.events, eventRefsSafe p e = true := by
    simpa [templateRefsSafe, List.all_eq_true] using h
  obtain ⟨r, hr⟩ := fixedRefsOf_ok p t.events hall
  obtain ⟨w, hw⟩ := warnWalk_ok p r t.events t.startTime hall
  refine ⟨w, ?_⟩
  unfold warnRelativeRanges
  rw [hr]
  simpa [bind, Except.bind] using hw

/-- C7 (amended): whenever every reference the validator resolves is safe
(no prayer name or bound reference collides with a non-time attribute of
the schedule dataclass) and the summed counted durations exceed 24 hours,
`validate` raises a `TemplateValidationError` whose issue list contains
the overage message; that message is built from the name of the first
event whose addition tips the running total over 24 hours, and from the
amount by which that prefix total exceeds 24 hours (every earlier prefix
total being within bounds). -/
theorem c7_total_duration_error (t : DayTemplate) (p : PrayerSchedule)
    (hsafe : templateRefsSafe p t = true)
    (h : 1440 < (totalAccOf t p).total) :
    ∃ issues nm amt,
      validate t p = .error (.validationError issues)
      ∧ validateTotalDuration t p = .ok (totalIssues (totalAccOf t p))
      ∧ (totalAccOf t p).overage = some (nm, amt)
      ∧ overageMsg (totalAccOf t p).total nm amt ∈ issues
      ∧ ∃ k, ∃ hk : k < t.events.length,
          nm = (t.events.get ⟨k, hk⟩).name
          ∧ amt = (totalAccUpTo t p (k + 1)).total - 1440
          ∧ 1440 < (totalAccUpTo t p (k + 1)).total
          ∧ ∀ j ≤ k, (totalAccUpTo t p j).total ≤ 1440 := by
  have hallsafe : ∀ e ∈ t.events, eventRefsSafe p e = true := by
    simpa [templateRefsSafe, List.all_eq_true] using hsafe
  obtain ⟨l2, hb0⟩ := boundsLoop_ok p t.startTime t.events hallsafe
  have hb : validatePrayerBounds t p = .ok l2 := hb0
  have hT := validateTotalDuration_ok t p hsafe
  obtain ⟨w, hw⟩ := warnRelativeRanges_ok t p hsafe
  rcases overage_charact t p t.events.length with ⟨hnone, hgood⟩ |
    ⟨kt, hk, hlt, hov, htip, hgoodkt⟩
  · exfalso
    have := hgood t.events.length (le_refl _)
    rw [← totalAccOf_eq] at this
    omega
  · rw [← totalAccOf_eq] at hov
    set nm := (t.events.get ⟨kt, hk⟩).name with hnm
    set amt := (totalAccUpTo t p (kt + 1)).total - 1440 with hamt
    have hmem : overageMsg (totalAccOf t p).total nm amt ∈ totalIssues (totalAccOf t p) := by
      unfold totalIssues
      rw [hov, if_pos h]
      exact List.mem_append_right _ (List.mem_singleton.mpr rfl)
    have hmem2 : overageMsg (totalAccOf t p).total nm amt
        ∈ validateWakeTime t p ++ l2 ++ validateFixedEvents t
          ++ totalIssues (totalAccOf t p) :=
      List.mem_append_right _ hmem
    refine ⟨_, nm, amt, ?_, hT, hov, hmem2, kt, hk, rfl, rfl, htip, hgoodkt⟩
    unfold validate
    rw [hb, hT, hw]
    dsimp only
    rw [if_neg]
    intro hcon
    rw [hcon] at hmem2
    exact List.not_mem_nil _ hmem2

/-- C7 witness: the theorem applied to the example template (all-relative,
so trivially safe) whose total exceeds 24 hours by 10 minutes because of
Study; `validate` indeed returns exactly the message naming Study and the
00:10 overage. -/
theorem c7_witness :
    (templateRefsSafe exampleSchedule c7Template = true
      ∧ 1440 < (totalAccOf c7Template exampleSchedule).total)
    ∧ (∃ issues nm amt,
        validate c7Template exampleSchedule = .error (.validationError issues)
        ∧ validateTotalDuration c7Template exampleSchedule
            = .ok (totalIssues (totalAccOf c7Template exampleSchedule))
        ∧ (totalAccOf c7Template exampleSchedule).overage = some (nm, amt)
        ∧ overageMsg (totalAccOf c7Template exampleSchedule).total nm amt ∈ issues
        ∧ ∃ k, ∃ hk : k < c7Template.events.length,
            nm = (c7Template.events.get ⟨k, hk⟩).name
            ∧ amt = (totalAccUpTo c7Template exampleSchedule (k + 1)).total - 1440
            ∧ 1440 < (totalAccUpTo c7Template exampleSchedule (k + 1)).total
            ∧ ∀ j ≤ k, (totalAccUpTo c7Template exampleSchedule j).total ≤ 1440)
    ∧ validate c7Template exampleSchedule = .error (.validationError
        [("Template exceeds 24 hours of planned time. Total planned time is 24:10. "
          ++ "'Study' pushes it over by 00:10.")]) :=
  ⟨⟨by decide, by decide⟩,
   c7_total_duration_error c7Template exampleSchedule (by decide) (by decide), by rfl⟩

/-- C7 fails without the safety hypothesis: on a template whose counted
total exceeds 24 hours but whose prayer-bound end reference names the
dataclass method `to_dict`, `validate` raises the uncaught `TypeError`
from `datetime.combine` instead of a `TemplateValidationError`. -/
theorem c7_counterexample :
    1440 < (totalAccOf c7BadTemplate exampleSchedule).total
    ∧ validate c7BadTemplate exampleSchedule = .error (.uncaught .typeError)
    ∧ ∀ issues, validate c7BadTemplate exampleSchedule
        ≠ .error (.validationError issues) := by
  refine ⟨by decide, by rfl, fun issues hcon => ?_⟩
  have h2 : (Except.error (ValidateError.uncaught PyErr.typeError)
        : Except ValidateError (List String))
      = .error (.validationError issues) :=
    Eq.trans (show Except.error (ValidateError.uncaught PyErr.typeError)
      = validate c7BadTemplate exampleSchedule from rfl) hcon
  simp at h2

/-! ### Claim C2: prayer completeness -/

theorem labelOfEvent_withDuration (e : Event) (d : Int) :
    labelOfEvent (e.withDuration d) = labelOfEvent e := by
  cases e <;> rfl

theorem prayerLabels_append (a b : List ScheduledEvent) :
    prayerLabels (a ++ b) = prayerLabels a ++ prayerLabels b := by
  simp [prayerLabels, List.filterMap_append]

theorem prayerLabels_set (plan : List ScheduledEvent) (idx : Nat)
    (item newItem : ScheduledEvent) (hidx : plan[idx]? = some item)
    (hsame : labelOfEvent newItem.event = labelOfEvent item.event) :
    prayerLabels (plan.set idx newItem) = prayerLabels plan := by
  induction plan generalizing idx with
  | nil => simp at hidx
  | cons hd tl ih =>
    cases idx with
    | zero =>
      simp at hidx
      subst hidx
      simp [prayerLabels, List.filterMap_cons, hsame]
    | succ n =>
      simp at hidx
      simp only [List.set_cons_succ, prayerLabels, List.filterMap_cons]
      rw [show List.filterMap (fun it => labelOfEvent it.event) (tl.set n newItem)
        = List.filterMap (fun it => labelOfEvent it.event) tl from ih n hidx]

theorem pushSlots_labels (b : Int) (pending : List PrayerSlot) :
    (pushSlots b pending).map PrayerSlot.label = pending.map PrayerSlot.label := by
  induction pending with
  | nil => rfl
  | cons s rest ih =>
    simp only [pushSlots]
    split
    · simp [ih]
    · rfl

theorem prayerItem_labels (plan : List ScheduledEvent) (slot : PrayerSlot) :
    prayerLabels (plan ++ [prayerItemOf slot]) = prayerLabels plan ++ [slot.label] := by
  simp [prayerLabels_append, prayerLabels, prayerItemOf, labelOfEvent]

theorem prayerLabels_nonprayer (plan : List ScheduledEvent) (ev : Event) (a b : Int)
    (h : labelOfEvent ev = none) :
    prayerLabels (plan ++ [⟨ev, a, b⟩]) = prayerLabels plan := by
  simp [prayerLabels_append, prayerLabels, List.filterMap_cons, h]

theorem flushLoop_labels (before : Int) (pending : List PrayerSlot) :
    ∀ (cursor : Int) (plan : List ScheduledEvent),
    prayerLabels (flushLoop before pending cursor plan).plan
      ++ (flushLoop before pending cursor plan).pending.map PrayerSlot.label
    = prayerLabels plan ++ pending.map PrayerSlot.label := by
  induction pending with
  | nil => intro cursor plan; rfl
  | cons slot rest ih =>
    intro cursor plan
    simp only [flushLoop]
    split
    · rfl
    · rw [ih, prayerItem_labels]
      simp

theorem finishLoop_labels (pending : List PrayerSlot) :
    ∀ (cursor : Int) (plan : List ScheduledEvent),
    prayerLabels (finishLoop pending cursor plan).plan
      ++ (finishLoop pending cursor plan).pending.map PrayerSlot.label
    = prayerLabels plan ++ pending.map PrayerSlot.label := by
  induction pending with
  | nil => intro cursor plan; rfl
  | cons slot rest ih =>
    intro cursor plan
    simp only [finishLoop]
    rw [ih, prayerItem_labels]
    simp

theorem finishLoop_pending (pending : List PrayerSlot) :
    ∀ (cursor : Int) (plan : List ScheduledEvent),
    (finishLoop pending cursor plan).pending = [] := by
  induction pending with
  | nil => intro cursor plan; rfl
  | cons slot rest ih => intro cursor plan; simp only [finishLoop]; exact ih _ _

theorem relLoop_labels (event : Event) (hEv : labelOfEvent event = none)
    (pending : List PrayerSlot) :
    ∀ (cursor : Int) (plan : List ScheduledEvent) (remaining : Int),
    prayerLabels (relLoop event pending cursor plan remaining).plan
      ++ (relLoop event pending cursor plan remaining).pending.map PrayerSlot.label
    = prayerLabels plan ++ pending.map PrayerSlot.label := by
  induction pending with
  | nil =>
    intro cursor plan remaining
    simp only [relLoop]
    split
    · rfl
    · rw [prayerLabels_nonprayer _ _ _ _ (by rw [labelOfEvent_withDuration]; exact hEv)]
  | cons slot rest ih =>
    intro cursor plan remaining
    simp only [relLoop]
    split
    · rfl
    · split
      · rw [ih, prayerItem_labels]
        simp
      · split
        · rw [ih, prayerItem_labels]
          simp
        · split
          · rw [ih, prayerItem_labels,
              prayerLabels_nonprayer _ _ _ _ (by rw [labelOfEvent_withDuration]; exact hEv)]
            simp
          · rw [prayerLabels_nonprayer _ _ _ _ (by rw [labelOfEvent_withDuration]; exact hEv)]

theorem overrideSlot_label (slot : PrayerSlot) (anchor : Option Int) (dur : Int) :
    (overrideSlot slot anchor dur).label = slot.label := by
  unfold overrideSlot
  cases anchor <;> by_cases h : 0 < dur <;> simp [h]

theorem seekCorrect_labels (targetLabel : String) (dur : Int)
    (plan1 : List ScheduledEvent) :
    prayerLabels (seekCorrect targetLabel dur plan1) = prayerLabels plan1 := by
  unfold seekCorrect
  split
  · rfl
  · split
    · rfl
    · split
      · exact prayerLabels_set _ _ _ _ (by assumption) (labelOfEvent_withDuration _ _)
      · rfl

theorem seekLoop_labels (targetLabel : String) (anchor : Option Int) (dur : Int)
    (pending : List PrayerSlot) :
    ∀ (cursor : Int) (plan : List ScheduledEvent),
    prayerLabels (seekLoop targetLabel anchor dur pending cursor plan).plan
      ++ (seekLoop targetLabel anchor dur pending cursor plan).pending.map PrayerSlot.label
    = prayerLabels plan ++ pending.map PrayerSlot.label := by
  induction pending with
  | nil => intro cursor plan; rfl
  | cons slot rest ih =>
    intro cursor plan
    simp only [seekLoop]
    split
    · rw [ih, prayerItem_labels]
      simp
    · show prayerLabels (seekCorrect targetLabel dur _) ++ _ = _
      rw [seekCorrect_labels, prayerItem_labels, overrideSlot_label]
      simp

theorem scheduleEvent_labels (st : SchedState) (e : Event) :
    prayerLabels (scheduleEvent st e).plan
      ++ (scheduleEvent st e).pending.map PrayerSlot.label
    = prayerLabels st.plan ++ st.pending.map PrayerSlot.label := by
  cases e with
  | prayerBoundEvent nm dur fl tks sr er =>
    simp only [scheduleEvent]
    split
    · rfl
    · split
      · rfl
      · simp only [pushPrayersAfter, applyLoop]
        rw [pushSlots_labels, prayerLabels_append]
        simp [prayerLabels, labelOfEvent]
  | prayerEvent nm dur fl tks pr a =>
    have hsame : ∀ item : ScheduledEvent,
        labelOfEvent (updatePlaceholder item a dur).event = labelOfEvent item.event := by
      intro item
      cases a <;> by_cases hd : 0 < dur <;>
        simp [updatePlaceholder, hd, labelOfEvent_withDuration]
    simp only [scheduleEvent]
    split
    · split
      · rfl
      · next item hidx =>
        show prayerLabels (st.plan.set _ _) ++ _ = _
        rw [prayerLabels_set _ _ item _ hidx (hsame item)]
    · exact seekLoop_labels _ _ _ _ _ _
  | fixedEvent nm dur fl tks a =>
    simp only [scheduleEvent, pushPrayersAfter, applyLoop]
    rw [pushSlots_labels, prayerLabels_append]
    simp [prayerLabels, labelOfEvent]
  | relative nm dur fl tks =>
    exact relLoop_labels (.relative nm dur fl tks) rfl _ _ _ _

theorem stepEvent_labels (st : SchedState) (e : Event) :
    prayerLabels (stepEvent st e).plan ++ (stepEvent st e).pending.map PrayerSlot.label
    = prayerLabels st.plan ++ st.pending.map PrayerSlot.label := by
  unfold stepEvent
  rw [scheduleEvent_labels]
  exact flushLoop_labels _ _ _ _

theorem foldl_stepEvent_labels (events : List Event) (st : SchedState) :
    prayerLabels (events.foldl stepEvent st).plan
      ++ (events.foldl stepEvent st).pending.map PrayerSlot.label
    = prayerLabels st.plan ++ st.pending.map PrayerSlot.label := by
  induction events generalizing st with
  | nil => rfl
  | cons e es ih =>
    simp only [List.foldl_cons]
    rw [ih, stepEvent_labels]

theorem buildPlanState_labels (t : DayTemplate) (s : PrayerSchedule) (d : PrayerDurations) :
    prayerLabels (buildPlanState t s d).plan
      = ["Fajr", "Dhuhr", "Asr", "Maghrib", "Isha"] := by
  show prayerLabels (finishLoop
      (t.events.foldl stepEvent
        { template := t, schedule := s, cursor := t.startTime,
          pending := prayerSlotsOf s d, plan := [] }).pending
      (t.events.foldl stepEvent
        { template := t, schedule := s, cursor := t.startTime,
          pending := prayerSlotsOf s d, plan := [] }).cursor
      (t.events.foldl stepEvent
        { template := t, schedule := s, cursor := t.startTime,
          pending := prayerSlotsOf s d, plan := [] }).plan).plan = _
  have h1 := finishLoop_labels
    (t.events.foldl stepEvent
      { template := t, schedule := s, cursor := t.startTime,
        pending := prayerSlotsOf s d, plan := [] }).pending
    (t.events.foldl stepEvent
      { template := t, schedule := s, cursor := t.startTime,
        pending := prayerSlotsOf s d, plan := [] }).cursor
    (t.events.foldl stepEvent
      { template := t, schedule := s, cursor := t.startTime,
        pending := prayerSlotsOf s d, plan := [] }).plan
  rw [finishLoop_pending] at h1
  simp only [List.map_nil, List.append_nil] at h1
  rw [h1, foldl_stepEvent_labels]
  rfl

theorem filter_isPrayerItem_length (items : List ScheduledEvent) :
    (items.filter isPrayerItem).length = (prayerLabels items).length := by
  induction items with
  | nil => rfl
  | cons it rest ih =>
    cases h : labelOfEvent it.event <;>
      simp [isPrayerItem, prayerLabels, List.filterMap_cons, List.filter_cons, h, ih]

theorem filter_label_count (lbl : String) (items : List ScheduledEvent) :
    (items.filter (isPrayerLabeled lbl)).length = (prayerLabels items).count lbl := by
  induction items with
  | nil => rfl
  | cons it rest ih =>
    cases h : labelOfEvent it.event with
    | none => simp [isPrayerLabeled, prayerLabels, List.filterMap_cons, List.filter_cons, h, ih]
    | some p =>
      by_cases hp : p = lbl
      · subst hp
        simp [isPrayerLabeled, prayerLabels, List.filterMap_cons, List.filter_cons, h, ih,
          List.count_cons]
      · simp [isPrayerLabeled, prayerLabels, List.filterMap_cons, List.filter_cons, h, ih,
          List.count_cons, hp]

/-- C2: for every template (even an empty one) and every schedule,
`build_plan` schedules exactly five prayer-labeled entries — the plan's
prayer labels are exactly Fajr, Dhuhr, Asr, Maghrib, Isha in that order of
first scheduling, so each canonical prayer appears exactly once and no
other prayer label appears at all. -/
theorem c2_prayer_completeness (t : DayTemplate) (pd : Int) (s : PrayerSchedule)
    (d : PrayerDurations) :
    prayerLabels (buildPlan t pd s d).items = ["Fajr", "Dhuhr", "Asr", "Maghrib", "Isha"]
    ∧ ((buildPlan t pd s d).items.filter isPrayerItem).length = 5
    ∧ ∀ lbl, ((buildPlan t pd s d).items.filter (isPrayerLabeled lbl)).length
        = if lbl ∈ (["Fajr", "Dhuhr", "Asr", "Maghrib", "Isha"] : List String) then 1 else 0 := by
  have hlab : prayerLabels (buildPlan t pd s d).items
      = ["Fajr", "Dhuhr", "Asr", "Maghrib", "Isha"] := buildPlanState_labels t s d
  refine ⟨hlab, ?_, ?_⟩
  · rw [filter_isPrayerItem_length, hlab]
    rfl
  · intro lbl
    rw [filter_label_count, hlab]
    by_cases h : lbl ∈ (["Fajr", "Dhuhr", "Asr", "Maghrib", "Isha"] : List String)
    · rw [if_pos h, List.count_eq_one_of_mem (by decide) h]
    · rw [if_neg h, List.count_eq_zero_of_not_mem h]



/-! C4 draft: general lemmas -/

theorem flushLoop_suffix (before : Int) (pending : List PrayerSlot) :
    ∀ (cursor : Int) (plan : List ScheduledEvent),
    (flushLoop before pending cursor plan).pending <:+ pending := by
  induction pending with
  | nil => intro cursor plan; exact List.suffix_refl _
  | cons slot rest ih =>
    intro cursor plan
    simp only [flushLoop]
    split
    · exact List.suffix_refl _
    · exact (ih _ _).trans (List.suffix_cons _ _)

theorem relLoop_suffix (event : Event) (pending : List PrayerSlot) :
    ∀ (cursor : Int) (plan : List ScheduledEvent) (remaining : Int),
    (relLoop event pending cursor plan remaining).pending <:+ pending := by
  induction pending with
  | nil =>
    intro cursor plan remaining
    simp only [relLoop]
    split
    · exact List.suffix_refl _
    · exact List.suffix_refl _
  | cons slot rest ih =>
    intro cursor plan remaining
    simp only [relLoop]
    split
    · exact List.suffix_refl _
    · split
      · exact (ih _ _ _).trans (List.suffix_cons _ _)
      · split
        · exact (ih _ _ _).trans (List.suffix_cons _ _)
        · split
          · exact (ih _ _ _).trans (List.suffix_cons _ _)
          · exact List.suffix_refl _

theorem finishLoop_plan (pending : List PrayerSlot) :
    ∀ (cursor : Int) (plan : List ScheduledEvent),
    (finishLoop pending cursor plan).plan = plan ++ pending.map prayerItemOf := by
  induction pending with
  | nil => intro cursor plan; simp [finishLoop]
  | cons slot rest ih =>
    intro cursor plan
    simp only [finishLoop, List.map_cons]
    rw [ih]
    simp

theorem findRev_none (plan : List ScheduledEvent) (target : String)
    (h : findRevPrayerIdx plan target = none) :
    ∀ it ∈ plan, matchesTarget target it = false := by
  induction plan with
  | nil => intro it hit; cases hit
  | cons hd tl ih =>
    intro it hit
    simp only [findRevPrayerIdx] at h
    rcases List.mem_cons.mp hit with heq | hmem
    · subst heq
      cases hrec : findRevPrayerIdx tl target with
      | some i => simp [hrec] at h
      | none =>
        rw [hrec] at h
        unfold matchesTarget
        cases hev : it.event with
        | prayerEvent nm dur fl tks p a =>
          rw [hev] at h
          by_cases hp : pyLower (pyStrip p) = target
          · simp [hp] at h
          · simp [hp]
        | relative nm dur fl tks => simp
        | fixedEvent nm dur fl tks a => simp
        | prayerBoundEvent nm dur fl tks sr er => simp
    · cases hrec : findRevPrayerIdx tl target with
      | some i => simp [hrec] at h
      | none => exact ih hrec it hmem

theorem findRev_spec (plan : List ScheduledEvent) (target : String) :
    ∀ idx, findRevPrayerIdx plan target = some idx →
    ∃ item, plan[idx]? = some item ∧ matchesTarget target item = true := by
  induction plan with
  | nil => intro idx h; cases h
  | cons hd tl ih =>
    intro idx h
    simp only [findRevPrayerIdx] at h
    cases hrec : findRevPrayerIdx tl target with
    | some i =>
      rw [hrec] at h
      injection h with h2
      subst h2
      rcases ih i hrec with ⟨item, hget, hm⟩
      exact ⟨item, by simpa using hget, hm⟩
    | none =>
      rw [hrec] at h
      cases hev : hd.event with
      | prayerEvent nm dur fl tks p a =>
        rw [hev] at h
        by_cases hp : pyLower (pyStrip p) = target
        · have h0 : idx = 0 := by
            simp [hp] at h
            omega
          subst h0
          refine ⟨hd, by simp, ?_⟩
          unfold matchesTarget
          rw [hev]
          simpa using hp
        · simp [hp] at h
      | relative nm dur fl tks => rw [hev] at h; simp at h
      | fixedEvent nm dur fl tks a => rw [hev] at h; simp at h
      | prayerBoundEvent nm dur fl tks sr er => rw [hev] at h; simp at h

theorem filter_set_singleton (P : ScheduledEvent → Bool) (plan : List ScheduledEvent) :
    ∀ (idx : Nat) (item newItem : ScheduledEvent), plan[idx]? = some item →
    P item = true → P newItem = true → (plan.filter P).length = 1 →
    (plan.set idx newItem).filter P = [newItem] := by
  induction plan with
  | nil => intro idx item newItem h; simp at h
  | cons hd tl ih =>
    intro idx item newItem hget hP hPn hlen
    cases idx with
    | zero =>
      simp only [List.getElem?_cons_zero, Option.some.injEq] at hget
      subst hget
      simp only [List.filter_cons, hP, if_pos] at hlen
      have htl : tl.filter P = [] := by
        cases hft : tl.filter P with
        | nil => rfl
        | cons a b => rw [hft] at hlen; simp at hlen
      simp [List.filter_cons, hPn, htl]
    | succ n =>
      simp only [List.getElem?_cons_succ] at hget
      have hmem : item ∈ tl := List.getElem?_mem hget
      cases hPhd : P hd with
      | true =>
        exfalso
        simp only [List.filter_cons, hPhd, if_pos] at hlen
        have : item ∈ tl.filter P := List.mem_filter.mpr ⟨hmem, hP⟩
        cases hft : tl.filter P with
        | nil => rw [hft] at this; cases this
        | cons a b => rw [hft] at hlen; simp at hlen
      | false =>
        simp only [List.filter_cons, hPhd] at hlen ⊢
        simp only [List.set_cons_succ, List.filter_cons, hPhd]
        exact ih n item newItem hget hP hPn (by simpa using hlen)

theorem matchesTarget_withDuration (target : String) (e : Event) (d2 : Int)
    (a b : Int) (it : ScheduledEvent) (h : it.event = e.withDuration d2)
    (a2 b2 : Int) (it2 : ScheduledEvent) (h2 : it2.event = e) :
    matchesTarget target it = matchesTarget target it2 := by
  unfold matchesTarget
  rw [h, h2]
  cases e <;> rfl

theorem duration_withDuration (e : Event) (d2 : Int) : (e.withDuration d2).duration = d2 := by
  cases e <;> rfl

theorem notin_map_of_suffix {α β : Type} (f : α → β) {l l2 : List α} (x : β)
    (hsuf : l2 <:+ l) (hno : x ∉ l.map f) : x ∉ l2.map f := by
  intro hmem
  rcases List.mem_map.mp hmem with ⟨a, ha, rfl⟩
  exact hno (List.mem_map_of_mem f (hsuf.subset ha))

theorem canon_fajr_iff : ∀ p ∈ canonLabels, (pyLower (pyStrip p) = "fajr" ↔ p = "Fajr") := by
  decide

theorem filter_fajr_count (plan : List ScheduledEvent)
    (hcanon : ∀ p ∈ prayerLabels plan, (pyLower (pyStrip p) = "fajr" ↔ p = "Fajr")) :
    (plan.filter (matchesTarget "fajr")).length = (prayerLabels plan).count "Fajr" := by
  induction plan with
  | nil => rfl
  | cons it rest ih =>
    have hrest : ∀ p ∈ prayerLabels rest, (pyLower (pyStrip p) = "fajr" ↔ p = "Fajr") := by
      intro p hp
      refine hcanon p ?_
      simp only [prayerLabels, List.filterMap_cons]
      cases labelOfEvent it.event
      · exact hp
      · exact List.mem_cons_of_mem _ hp
    cases hev : it.event with
    | prayerEvent nm dur fl tks p a =>
      have hplab : prayerLabels (it :: rest) = p :: prayerLabels rest := by
        simp [prayerLabels, List.filterMap_cons, labelOfEvent, hev]
      have hpmem : p ∈ prayerLabels (it :: rest) := by
        rw [hplab]; exact List.mem_cons_self _ _
      have hiff := hcanon p hpmem
      by_cases hpf : p = "Fajr"
      · subst hpf
        have hm : matchesTarget "fajr" it = true := by
          unfold matchesTarget
          rw [hev]
          simp [hiff.mpr rfl]
        simp only [List.filter_cons, hm, if_pos, hplab, List.count_cons, List.length_cons]
        simp [ih hrest]
      · have hm : matchesTarget "fajr" it = false := by
          unfold matchesTarget
          rw [hev]
          simp only [decide_eq_false_iff_not]
          intro hcon
          exact hpf (hiff.mp hcon)
        simp only [List.filter_cons, hm, hplab, List.count_cons]
        simp [ih hrest, hpf]
    | relative nm dur fl tks =>
      have hm : matchesTarget "fajr" it = false := by unfold matchesTarget; rw [hev]
      have hplab : prayerLabels (it :: rest) = prayerLabels rest := by
        simp [prayerLabels, List.filterMap_cons, labelOfEvent, hev]
      simp only [List.filter_cons, hm, hplab]
      exact ih hrest
    | fixedEvent nm dur fl tks a =>
      have hm : matchesTarget "fajr" it = false := by unfold matchesTarget; rw [hev]
      have hplab : prayerLabels (it :: rest) = prayerLabels rest := by
        simp [prayerLabels, List.filterMap_cons, labelOfEvent, hev]
      simp only [List.filter_cons, hm, hplab]
      exact ih hrest
    | prayerBoundEvent nm dur fl tks sr er =>
      have hm : matchesTarget "fajr" it = false := by unfold matchesTarget; rw [hev]
      have hplab : prayerLabels (it :: rest) = prayerLabels rest := by
        simp [prayerLabels, List.filterMap_cons, labelOfEvent, hev]
      simp only [List.filter_cons, hm, hplab]
      exact ih hrest

theorem flushPrayers_labels (st : SchedState) (b : Int) :
    prayerLabels (flushPrayers st b).plan
      ++ (flushPrayers st b).pending.map PrayerSlot.label
    = prayerLabels st.plan ++ st.pending.map PrayerSlot.label :=
  flushLoop_labels b st.pending st.cursor st.plan

/-- If Fajr's natural time is at most the cursor position reached after a
relative event of duration `d` starting from cursor `s`, then after the
first flush, the relative event, and the flush preceding the next event,
the Fajr slot is no longer pending. -/
theorem c4_fajr_popped (ev : Event) (s d fstart fdur : Int) (rest0 : List PrayerSlot)
    (ls1 ls2 ls3 : LoopState)
    (hnf : "Fajr" ∉ rest0.map PrayerSlot.label) (hf : fstart ≤ s + d)
    (h1 : ls1 = flushLoop s (⟨"Fajr", fstart, fdur⟩ :: rest0) s [])
    (h2 : ls2 = relLoop ev ls1.pending ls1.cursor ls1.plan d)
    (h3 : ls3 = flushLoop ls2.cursor ls2.pending ls2.cursor ls2.plan) :
    "Fajr" ∉ ls3.pending.map PrayerSlot.label := by
  subst h1 h2 h3
  by_cases hgt : fstart > s
  · -- Fajr is not yet due at the first flush: the slot list is untouched.
    have h1e : flushLoop s (⟨"Fajr", fstart, fdur⟩ :: rest0) s []
        = ⟨⟨"Fajr", fstart, fdur⟩ :: rest0, s, []⟩ := by
      simp [flushLoop, hgt]
    rw [h1e]
    have hd : 0 < d := by omega
    by_cases hmin : min d (fstart - s) = fstart - s
    · -- the chunk reaches the slot: relLoop pops Fajr itself
      have h2e : relLoop ev (⟨"Fajr", fstart, fdur⟩ :: rest0) s [] d
          = relLoop ev rest0 (fstart + fdur)
              (([] ++ [⟨ev.withDuration (min d (fstart - s)), s, s + min d (fstart - s)⟩])
                ++ [prayerItemOf ⟨"Fajr", fstart, fdur⟩]) (d - min d (fstart - s)) := by
        rw [relLoop]
        rw [if_neg (by omega : ¬ d ≤ 0)]
        simp only []
        rw [if_neg (by omega : ¬ (fstart : Int) < s)]
        rw [if_neg (by omega : ¬ (fstart : Int) - s ≤ 0)]
        rw [if_pos hmin]
      have hsuf2 : (relLoop ev (⟨"Fajr", fstart, fdur⟩ :: rest0) s [] d).pending <:+ rest0 := by
        rw [h2e]; exact relLoop_suffix ev rest0 _ _ _
      have hsuf3 := flushLoop_suffix
        (relLoop ev (⟨"Fajr", fstart, fdur⟩ :: rest0) s [] d).cursor
        (relLoop ev (⟨"Fajr", fstart, fdur⟩ :: rest0) s [] d).pending
        (relLoop ev (⟨"Fajr", fstart, fdur⟩ :: rest0) s [] d).cursor
        (relLoop ev (⟨"Fajr", fstart, fdur⟩ :: rest0) s [] d).plan
      exact notin_map_of_suffix PrayerSlot.label "Fajr" (hsuf3.trans hsuf2) hnf
    · -- the relative event ends strictly before Fajr's slot: impossible unless
      -- the cursor has already reached it, and then the second flush pops Fajr
      have hchunk : min d (fstart - s) = d := by
        rcases min_choice d (fstart - s) with h | h
        · exact h
        · exact absurd h hmin
      have h2e : relLoop ev (⟨"Fajr", fstart, fdur⟩ :: rest0) s [] d
          = ⟨⟨"Fajr", fstart, fdur⟩ :: rest0, s + min d (fstart - s),
             [] ++ [⟨ev.withDuration (min d (fstart - s)), s, s + min d (fstart - s)⟩]⟩ := by
        rw [relLoop]
        rw [if_neg (by omega : ¬ d ≤ 0)]
        simp only []
        rw [if_neg (by omega : ¬ (fstart : Int) < s)]
        rw [if_neg (by omega : ¬ (fstart : Int) - s ≤ 0)]
        rw [if_neg hmin]
      rw [h2e]
      have h3e : flushLoop (s + min d (fstart - s))
          (⟨"Fajr", fstart, fdur⟩ :: rest0) (s + min d (fstart - s))
          ([] ++ [⟨ev.withDuration (min d (fstart - s)), s, s + min d (fstart - s)⟩])
          = flushLoop (s + min d (fstart - s)) rest0 (fstart + fdur)
              (([] ++ [⟨ev.withDuration (min d (fstart - s)), s, s + min d (fstart - s)⟩])
                ++ [prayerItemOf ⟨"Fajr", fstart, fdur⟩]) := by
        rw [flushLoop]
        rw [if_neg (by rw [hchunk]; omega : ¬ (fstart : Int) > s + min d (fstart - s))]
      rw [h3e]
      exact notin_map_of_suffix PrayerSlot.label "Fajr"
        (flushLoop_suffix _ rest0 _ _) hnf
  · -- Fajr is already due at the first flush and gets popped there.
    have h1e : flushLoop s (⟨"Fajr", fstart, fdur⟩ :: rest0) s []
        = flushLoop s rest0 (fstart + fdur) ([] ++ [prayerItemOf ⟨"Fajr", fstart, fdur⟩]) := by
      rw [flushLoop]
      rw [if_neg hgt]
    have hsuf1 : (flushLoop s (⟨"Fajr", fstart, fdur⟩ :: rest0) s []).pending <:+ rest0 := by
      rw [h1e]; exact flushLoop_suffix s rest0 _ _
    have hsuf2 := relLoop_suffix ev
      (flushLoop s (⟨"Fajr", fstart, fdur⟩ :: rest0) s []).pending
      (flushLoop s (⟨"Fajr", fstart, fdur⟩ :: rest0) s []).cursor
      (flushLoop s (⟨"Fajr", fstart, fdur⟩ :: rest0) s []).plan d
    have hsuf3 := flushLoop_suffix
      (relLoop ev (flushLoop s (⟨"Fajr", fstart, fdur⟩ :: rest0) s []).pending
        (flushLoop s (⟨"Fajr", fstart, fdur⟩ :: rest0) s []).cursor
        (flushLoop s (⟨"Fajr", fstart, fdur⟩ :: rest0) s []).plan d).cursor
      (relLoop ev (flushLoop s (⟨"Fajr", fstart, fdur⟩ :: rest0) s []).pending
        (flushLoop s (⟨"Fajr", fstart, fdur⟩ :: rest0) s []).cursor
        (flushLoop s (⟨"Fajr", fstart, fdur⟩ :: rest0) s []).plan d).pending
      (relLoop ev (flushLoop s (⟨"Fajr", fstart, fdur⟩ :: rest0) s []).pending
        (flushLoop s (⟨"Fajr", fstart, fdur⟩ :: rest0) s []).cursor
        (flushLoop s (⟨"Fajr", fstart, fdur⟩ :: rest0) s []).plan d).cursor
      (relLoop ev (flushLoop s (⟨"Fajr", fstart, fdur⟩ :: rest0) s []).pending
        (flushLoop s (⟨"Fajr", fstart, fdur⟩ :: rest0) s []).cursor
        (flushLoop s (⟨"Fajr", fstart, fdur⟩ :: rest0) s []).plan d).plan
    exact notin_map_of_suffix PrayerSlot.label "Fajr"
      ((hsuf3.trans hsuf2).trans hsuf1) hnf

/-- `_schedule_event` on a prayer placeholder whose label is already in the
plan: the matching entry is updated in place and nothing else changes. -/
theorem scheduleEvent_prayer_found (st : SchedState) (nm : String) (dur : Int)
    (fl : Bool) (tks : List Task) (pr : String) (a : Option Int) (idx : Nat)
    (item : ScheduledEvent)
    (hfind : findRevPrayerIdx st.plan (pyLower (pyStrip pr)) = some idx)
    (hget : st.plan[idx]? = some item) :
    scheduleEvent st (.prayerEvent nm dur fl tks pr a)
      = { st with plan := st.plan.set idx (updatePlaceholder item a dur) } := by
  simp only [scheduleEvent, hfind, hget]

/-- C4: for a template of a relative event followed by the placeholder parsed
from `.20 Fajr`, against any schedule in which Fajr's time is reached during
or before the relative event, the plan carries exactly one Fajr-labeled
entry, of duration 20 both in its event field and in its extent: the
placeholder corrects the already flushed entry instead of duplicating it. -/
theorem c4_idempotent_correction (s d pd : Int) (sched : PrayerSchedule)
    (dcfg : PrayerDurations) (hf : sched.fajr ≤ s + d) :
    Except.map (fun (t : DayTemplate) => (t.startTime, t.events))
        (parseQalib ("04:00" ++ "\n" ++ "1 Prep" ++ "\n" ++ ".20 Fajr") "c4")
      = Except.ok ((240 : Int), (c4Template 240 60).events)
    ∧ ((buildPlan (c4Template s d) pd sched dcfg).items.filter
          (matchesTarget "fajr")).map (fun it => (it.event.duration, it.stop - it.start))
      = [((20 : Int), (20 : Int))] := by
  refine ⟨by rfl, ?_⟩
  set F : PrayerSlot := ⟨"Fajr", sched.fajr, dcfg.fajr⟩ with hFdef
  set rest0 : List PrayerSlot :=
    [⟨"Dhuhr", sched.dhuhr, dcfg.dhuhr⟩, ⟨"Asr", sched.asr, dcfg.asr⟩,
     ⟨"Maghrib", sched.maghrib, dcfg.maghrib⟩, ⟨"Isha", sched.isha, dcfg.isha⟩] with hrest0
  set ls1 : LoopState := flushLoop s (F :: rest0) s [] with hls1
  set ls2 : LoopState :=
    relLoop (Event.relative "Prep" d true []) ls1.pending ls1.cursor ls1.plan d with hls2
  set ls3 : LoopState := flushLoop ls2.cursor ls2.pending ls2.cursor ls2.plan with hls3
  have hnf : "Fajr" ∉ rest0.map PrayerSlot.label := by
    rw [hrest0]; simp
  have hPfajr : "Fajr" ∉ ls3.pending.map PrayerSlot.label :=
    c4_fajr_popped (Event.relative "Prep" d true []) s d sched.fajr dcfg.fajr rest0
      ls1 ls2 ls3 hnf hf hls1 hls2 hls3
  have hEQ : prayerLabels ls3.plan ++ ls3.pending.map PrayerSlot.label = canonLabels := by
    rw [hls3]
    rw [flushLoop_labels ls2.cursor ls2.pending ls2.cursor ls2.plan]
    rw [hls2]
    rw [relLoop_labels (Event.relative "Prep" d true []) rfl ls1.pending ls1.cursor ls1.plan d]
    rw [hls1]
    rw [flushLoop_labels s (F :: rest0) s []]
    rfl
  have hcanonset : ∀ p ∈ prayerLabels ls3.plan, p ∈ canonLabels := by
    intro p hp
    rw [← hEQ]
    exact List.mem_append_left _ hp
  have hcnt : (prayerLabels ls3.plan).count "Fajr" = 1 := by
    have h1 : (prayerLabels ls3.plan).count "Fajr"
        + (ls3.pending.map PrayerSlot.label).count "Fajr" = canonLabels.count "Fajr" := by
      rw [← List.count_append, hEQ]
    have h2 : (ls3.pending.map PrayerSlot.label).count "Fajr" = 0 :=
      List.count_eq_zero.mpr hPfajr
    have h3 : canonLabels.count "Fajr" = 1 := by decide
    omega
  have hflen : (ls3.plan.filter (matchesTarget "fajr")).length = 1 := by
    rw [filter_fajr_count ls3.plan (fun p hp => canon_fajr_iff p (hcanonset p hp))]
    exact hcnt
  have hex : ∃ it ∈ ls3.plan, matchesTarget "fajr" it = true := by
    cases hft : ls3.plan.filter (matchesTarget "fajr") with
    | nil => rw [hft] at hflen; simp at hflen
    | cons a b =>
      have hmem := List.mem_filter.mp (hft ▸ List.mem_cons_self a b)
      exact ⟨a, hmem.1, hmem.2⟩
  cases hfind : findRevPrayerIdx ls3.plan "fajr" with
  | none =>
    exfalso
    obtain ⟨it, hit, hmt⟩ := hex
    have hfl := findRev_none ls3.plan "fajr" hfind it hit
    rw [hfl] at hmt
    cases hmt
  | some idx =>
    obtain ⟨item, hget, hmatch⟩ := findRev_spec ls3.plan "fajr" idx hfind
    set stM : SchedState :=
      { template := c4Template s d, schedule := sched,
        cursor := ls3.cursor, pending := ls3.pending, plan := ls3.plan } with hstM
    have hfind2 : findRevPrayerIdx stM.plan (pyLower (pyStrip "Fajr")) = some idx := hfind
    have hget2 : stM.plan[idx]? = some item := hget
    have hsw := scheduleEvent_prayer_found stM "Fajr" 20 false [] "Fajr" none idx item
      hfind2 hget2
    have hswplan : (scheduleEvent stM (.prayerEvent "Fajr" 20 false [] "Fajr" none)).plan
        = ls3.plan.set idx (updatePlaceholder item none 20) := by
      rw [hsw]
    have hswpend : (scheduleEvent stM (.prayerEvent "Fajr" 20 false [] "Fajr" none)).pending
        = ls3.pending := by
      rw [hsw]
    have hitems : (buildPlan (c4Template s d) pd sched dcfg).items
        = (scheduleEvent stM (.prayerEvent "Fajr" 20 false [] "Fajr" none)).plan
          ++ (scheduleEvent stM (.prayerEvent "Fajr" 20 false [] "Fajr" none)).pending.map
              prayerItemOf := by
      show (finishLoop
          (scheduleEvent stM (.prayerEvent "Fajr" 20 false [] "Fajr" none)).pending
          (scheduleEvent stM (.prayerEvent "Fajr" 20 false [] "Fajr" none)).cursor
          (scheduleEvent stM (.prayerEvent "Fajr" 20 false [] "Fajr" none)).plan).plan = _
      exact finishLoop_plan _ _ _
    have hmatchNew : matchesTarget "fajr" (updatePlaceholder item none 20) = true := by
      have hev : (updatePlaceholder item none 20).event = item.event.withDuration 20 := rfl
      have := matchesTarget_withDuration "fajr" item.event 20 0 0
        (updatePlaceholder item none 20) hev 0 0 item rfl
      rw [this]
      exact hmatch
    rw [hitems, hswplan, hswpend, List.filter_append]
    rw [filter_set_singleton (matchesTarget "fajr") ls3.plan idx item
      (updatePlaceholder item none 20) hget hmatch hmatchNew hflen]
    have hpendfilter : (ls3.pending.map prayerItemOf).filter (matchesTarget "fajr") = [] := by
      rw [List.filter_eq_nil]
      intro it hit
      rcases List.mem_map.mp hit with ⟨sl, hsl, rfl⟩
      have hlmem : sl.label ∈ canonLabels := by
        rw [← hEQ]
        exact List.mem_append_right _ (List.mem_map_of_mem PrayerSlot.label hsl)
      have hlne : sl.label ≠ "Fajr" := by
        intro hcon
        exact hPfajr (hcon ▸ List.mem_map_of_mem PrayerSlot.label hsl)
      have hms : matchesTarget "fajr" (prayerItemOf sl)
          = decide (pyLower (pyStrip sl.label) = "fajr") := rfl
      rw [Bool.not_eq_true, hms, decide_eq_false_iff_not]
      intro hcon
      exact hlne ((canon_fajr_iff sl.label hlmem).mp hcon)
    rw [hpendfilter, List.append_nil, List.map_cons, List.map_nil]
    have e1 : (updatePlaceholder item none 20).stop = item.start + 20 := rfl
    have e2 : (updatePlaceholder item none 20).start = item.start := rfl
    have e3 : (updatePlaceholder item none 20).event.duration = 20 :=
      duration_withDuration item.event 20
    rw [e1, e2, e3]
    norm_num

theorem c4_witness :
    exampleSchedule.fajr ≤ 240 + 60
    ∧ (Except.map (fun (t : DayTemplate) => (t.startTime, t.events))
          (parseQalib ("04:00" ++ "\n" ++ "1 Prep" ++ "\n" ++ ".20 Fajr") "c4")
        = Except.ok ((240 : Int), (c4Template 240 60).events)
      ∧ ((buildPlan (c4Template 240 60) 20300 exampleSchedule exampleDurations).items.filter
            (matchesTarget "fajr")).map (fun it => (it.event.duration, it.stop - it.start))
        = [((20 : Int), (20 : Int))]) :=
  ⟨by decide, c4_idempotent_correction 240 60 20300 exampleSchedule exampleDurations (by decide)⟩


/-! ### C1: ordering and overlap of plan items -/

theorem chainFrom_mono (xs : List ScheduledEvent) :
    ∀ {c c' : Int}, c' ≤ c → chainFrom c xs → chainFrom c' xs := by
  cases xs with
  | nil => intro c c' _ _; trivial
  | cons a rest =>
    intro c c' hle h
    exact ⟨le_trans hle h.1, h.2.1, h.2.2⟩

theorem chainFrom_append (xs : List ScheduledEvent) :
    ∀ (ys : List ScheduledEvent) (c : Int), chainFrom c xs →
    chainFrom (chainEnd c xs) ys → chainFrom c (xs ++ ys) := by
  induction xs with
  | nil => intro ys c _ hy; exact hy
  | cons a rest ih =>
    intro ys c hx hy
    exact ⟨hx.1, hx.2.1, ih ys a.stop hx.2.2 hy⟩

theorem chainEnd_append (xs : List ScheduledEvent) :
    ∀ (ys : List ScheduledEvent) (c : Int),
    chainEnd c (xs ++ ys) = chainEnd (chainEnd c xs) ys := by
  induction xs with
  | nil => intro ys c; rfl
  | cons a rest ih => intro ys c; exact ih ys a.stop

theorem chainFrom_ge_start (xs : List ScheduledEvent) :
    ∀ (c : Int), chainFrom c xs → ∀ b ∈ xs, c ≤ b.start := by
  induction xs with
  | nil => intro c _ b hb; cases hb
  | cons a rest ih =>
    intro c h b hb
    rcases List.mem_cons.mp hb with rfl | hb
    · exact h.1
    · exact le_trans (le_trans h.1 h.2.1) (ih a.stop h.2.2 b hb)

theorem chainFrom_pairwise (xs : List ScheduledEvent) :
    ∀ (c : Int), chainFrom c xs →
    List.Pairwise (fun a b : ScheduledEvent => a.stop ≤ b.start) xs := by
  induction xs with
  | nil => intro c _; exact List.Pairwise.nil
  | cons a rest ih =>
    intro c h
    exact List.Pairwise.cons (chainFrom_ge_start rest a.stop h.2.2) (ih a.stop h.2.2)

theorem chainFrom_all_forward (xs : List ScheduledEvent) :
    ∀ (c : Int), chainFrom c xs → ∀ b ∈ xs, b.start ≤ b.stop := by
  induction xs with
  | nil => intro c _ b hb; cases hb
  | cons a rest ih =>
    intro c h b hb
    rcases List.mem_cons.mp hb with rfl | hb
    · exact h.2.1
    · exact ih a.stop h.2.2 b hb

theorem slotsChained_cons (s : PrayerSlot) (rest : List PrayerSlot)
    (h : slotsChained (s :: rest) = true) :
    0 ≤ s.duration ∧ slotsChained rest = true
      ∧ cursorBelow (s.start + s.duration) rest = true := by
  cases rest with
  | nil =>
    simp only [slotsChained, decide_eq_true_eq] at h
    exact ⟨h, rfl, rfl⟩
  | cons b r =>
    simp only [slotsChained, Bool.and_eq_true, decide_eq_true_eq] at h
    refine ⟨h.1.1, h.2, ?_⟩
    simp only [cursorBelow, decide_eq_true_eq]
    exact h.1.2

theorem flushLoop_chain (before : Int) (pending : List PrayerSlot) :
    ∀ (cursor : Int) (plan : List ScheduledEvent),
    slotsChained pending = true → cursorBelow cursor pending = true →
    ∃ tail,
      (flushLoop before pending cursor plan).plan = plan ++ tail
      ∧ chainFrom cursor tail
      ∧ (flushLoop before pending cursor plan).cursor = chainEnd cursor tail
      ∧ slotsChained (flushLoop before pending cursor plan).pending = true
      ∧ cursorBelow (flushLoop before pending cursor plan).cursor
          (flushLoop before pending cursor plan).pending = true := by
  induction pending with
  | nil =>
    intro cursor plan _ _
    exact ⟨[], by simp [flushLoop], trivial, rfl, rfl, rfl⟩
  | cons slot rest ih =>
    intro cursor plan hsc hcb
    obtain ⟨hdur, hscr, hcbr⟩ := slotsChained_cons slot rest hsc
    have hcs : cursor ≤ slot.start := by
      simpa [cursorBelow] using hcb
    by_cases h : slot.start > before
    · have he : flushLoop before (slot :: rest) cursor plan = ⟨slot :: rest, cursor, plan⟩ := by
        rw [flushLoop, if_pos h]
      rw [he]
      exact ⟨[], by simp, trivial, rfl, hsc, hcb⟩
    · have he : flushLoop before (slot :: rest) cursor plan
          = flushLoop before rest (slot.start + slot.duration)
              (plan ++ [prayerItemOf slot]) := by
        rw [flushLoop, if_neg h]
      rw [he]
      obtain ⟨tail, hplan, hchain, hcur, hsc2, hcb2⟩ :=
        ih (slot.start + slot.duration) (plan ++ [prayerItemOf slot]) hscr hcbr
      refine ⟨prayerItemOf slot :: tail, ?_, ?_, ?_, hsc2, hcb2⟩
      · rw [hplan]; simp
      · exact ⟨hcs, by simpa [prayerItemOf] using hdur, hchain⟩
      · exact hcur

theorem relLoop_chain (ev : Event) (pending : List PrayerSlot) :
    ∀ (cursor : Int) (plan : List ScheduledEvent) (remaining : Int),
    slotsChained pending = true → cursorBelow cursor pending = true →
    ∃ tail,
      (relLoop ev pending cursor plan remaining).plan = plan ++ tail
      ∧ chainFrom cursor tail
      ∧ (relLoop ev pending cursor plan remaining).cursor = chainEnd cursor tail
      ∧ slotsChained (relLoop ev pending cursor plan remaining).pending = true
      ∧ cursorBelow (relLoop ev pending cursor plan remaining).cursor
          (relLoop ev pending cursor plan remaining).pending = true := by
  induction pending with
  | nil =>
    intro cursor plan remaining hsc hcb
    by_cases hr : remaining ≤ 0
    · have he : relLoop ev [] cursor plan remaining = ⟨[], cursor, plan⟩ := by
        rw [relLoop, if_pos hr]
      rw [he]
      exact ⟨[], by simp, trivial, rfl, rfl, rfl⟩
    · have he : relLoop ev [] cursor plan remaining
          = ⟨[], cursor + remaining,
             plan ++ [⟨ev.withDuration remaining, cursor, cursor + remaining⟩]⟩ := by
        rw [relLoop, if_neg hr]
      rw [he]
      exact ⟨[⟨ev.withDuration remaining, cursor, cursor + remaining⟩],
        by simp, ⟨le_refl _, show cursor ≤ cursor + remaining by omega, trivial⟩, rfl, rfl, rfl⟩
  | cons slot rest ih =>
    intro cursor plan remaining hsc hcb
    obtain ⟨hdur, hscr, hcbr⟩ := slotsChained_cons slot rest hsc
    have hcs : cursor ≤ slot.start := by
      simpa [cursorBelow] using hcb
    by_cases hr : remaining ≤ 0
    · have he : relLoop ev (slot :: rest) cursor plan remaining
          = ⟨slot :: rest, cursor, plan⟩ := by
        rw [relLoop, if_pos hr]
      rw [he]
      exact ⟨[], by simp, trivial, rfl, hsc, hcb⟩
    · by_cases ht : slot.start - cursor ≤ 0
      · have hse : slot.start = cursor := by omega
        have he : relLoop ev (slot :: rest) cursor plan remaining
            = relLoop ev rest (slot.start + slot.duration)
                (plan ++ [prayerItemOf slot]) remaining := by
          rw [relLoop, if_neg hr]
          simp only []
          rw [if_neg (by omega : ¬ slot.start < cursor)]
          rw [if_pos ht]
        rw [he]
        obtain ⟨tail, hplan, hchain, hcur, hsc2, hcb2⟩ :=
          ih (slot.start + slot.duration) (plan ++ [prayerItemOf slot]) remaining hscr hcbr
        refine ⟨prayerItemOf slot :: tail, ?_, ?_, ?_, hsc2, hcb2⟩
        · rw [hplan]; simp
        · exact ⟨hcs, by simpa [prayerItemOf] using hdur, hchain⟩
        · exact hcur
      · by_cases hch : min remaining (slot.start - cursor) = slot.start - cursor
        · have he : relLoop ev (slot :: rest) cursor plan remaining
              = relLoop ev rest (slot.start + slot.duration)
                  ((plan ++ [⟨ev.withDuration (min remaining (slot.start - cursor)),
                      cursor, cursor + min remaining (slot.start - cursor)⟩])
                    ++ [prayerItemOf slot]) (remaining - min remaining (slot.start - cursor)) := by
            rw [relLoop, if_neg hr]
            simp only []
            rw [if_neg (by omega : ¬ slot.start < cursor)]
            rw [if_neg ht]
            rw [if_pos hch]
          rw [he]
          obtain ⟨tail, hplan, hchain, hcur, hsc2, hcb2⟩ :=
            ih (slot.start + slot.duration)
              ((plan ++ [⟨ev.withDuration (min remaining (slot.start - cursor)),
                  cursor, cursor + min remaining (slot.start - cursor)⟩])
                ++ [prayerItemOf slot])
              (remaining - min remaining (slot.start - cursor)) hscr hcbr
          refine ⟨⟨ev.withDuration (min remaining (slot.start - cursor)),
              cursor, cursor + min remaining (slot.start - cursor)⟩
              :: prayerItemOf slot :: tail, ?_, ?_, ?_, hsc2, hcb2⟩
          · rw [hplan]; simp
          · refine ⟨le_refl _, show cursor ≤ cursor + min remaining (slot.start - cursor) by omega,
                ?_, ?_, ?_⟩
            · show cursor + min remaining (slot.start - cursor) ≤ (prayerItemOf slot).start
              simp only [prayerItemOf]
              omega
            · show (prayerItemOf slot).start ≤ (prayerItemOf slot).stop
              simp only [prayerItemOf]
              omega
            · show chainFrom (prayerItemOf slot).stop tail
              simpa [prayerItemOf] using hchain
          · exact hcur
        · have hch2 : min remaining (slot.start - cursor) = remaining := by
            rcases min_choice remaining (slot.start - cursor) with h | h
            · exact h
            · exact absurd h hch
          have he : relLoop ev (slot :: rest) cursor plan remaining
              = ⟨slot :: rest, cursor + min remaining (slot.start - cursor),
                 plan ++ [⟨ev.withDuration (min remaining (slot.start - cursor)),
                    cursor, cursor + min remaining (slot.start - cursor)⟩]⟩ := by
            rw [relLoop, if_neg hr]
            simp only []
            rw [if_neg (by omega : ¬ slot.start < cursor)]
            rw [if_neg ht]
            rw [if_neg hch]
          rw [he]
          refine ⟨[⟨ev.withDuration (min remaining (slot.start - cursor)),
              cursor, cursor + min remaining (slot.start - cursor)⟩],
            by simp, ⟨le_refl _,
              show cursor ≤ cursor + min remaining (slot.start - cursor) by omega, trivial⟩,
            rfl, hsc, ?_⟩
          · have hlt : min remaining (slot.start - cursor) < slot.start - cursor := by
              have := min_le_right remaining (slot.start - cursor)
              omega
            simp only [cursorBelow, decide_eq_true_eq]
            omega

theorem finishLoop_chain (pending : List PrayerSlot) :
    ∀ (cursor : Int) (plan : List ScheduledEvent),
    slotsChained pending = true → cursorBelow cursor pending = true →
    ∃ tail,
      (finishLoop pending cursor plan).plan = plan ++ tail
      ∧ chainFrom cursor tail := by
  induction pending with
  | nil =>
    intro cursor plan _ _
    exact ⟨[], by simp [finishLoop], trivial⟩
  | cons slot rest ih =>
    intro cursor plan hsc hcb
    obtain ⟨hdur, hscr, hcbr⟩ := slotsChained_cons slot rest hsc
    have hcs : cursor ≤ slot.start := by
      simpa [cursorBelow] using hcb
    have he : finishLoop (slot :: rest) cursor plan
        = finishLoop rest (slot.start + slot.duration) (plan ++ [prayerItemOf slot]) := rfl
    rw [he]
    obtain ⟨tail, hplan, hchain⟩ :=
      ih (slot.start + slot.duration) (plan ++ [prayerItemOf slot]) hscr hcbr
    refine ⟨prayerItemOf slot :: tail, ?_, ?_⟩
    · rw [hplan]; simp
    · exact ⟨hcs, by simpa [prayerItemOf] using hdur, hchain⟩

theorem stepEvent_chain (st : SchedState) (e : Event) (he : isRelative e = true)
    (hsc : slotsChained st.pending = true)
    (hcb : cursorBelow st.cursor st.pending = true) :
    ∃ tail, (stepEvent st e).plan = st.plan ++ tail
      ∧ chainFrom st.cursor tail
      ∧ (stepEvent st e).cursor = chainEnd st.cursor tail
      ∧ slotsChained (stepEvent st e).pending = true
      ∧ cursorBelow (stepEvent st e).cursor (stepEvent st e).pending = true := by
  cases e with
  | fixedEvent nm du fl tks a => simp [isRelative] at he
  | prayerEvent nm du fl tks pr a => simp [isRelative] at he
  | prayerBoundEvent nm du fl tks sr er => simp [isRelative] at he
  | relative nm du fl tks =>
    obtain ⟨t1, h1p, h1c, h1cur, h1sc, h1cb⟩ :=
      flushLoop_chain st.cursor st.pending st.cursor st.plan hsc hcb
    obtain ⟨t2, h2p, h2c, h2cur, h2sc, h2cb⟩ :=
      relLoop_chain (.relative nm du fl tks)
        (flushLoop st.cursor st.pending st.cursor st.plan).pending
        (flushLoop st.cursor st.pending st.cursor st.plan).cursor
        (flushLoop st.cursor st.pending st.cursor st.plan).plan du h1sc h1cb
    have hplan : (stepEvent st (Event.relative nm du fl tks)).plan
        = (relLoop (Event.relative nm du fl tks)
            (flushLoop st.cursor st.pending st.cursor st.plan).pending
            (flushLoop st.cursor st.pending st.cursor st.plan).cursor
            (flushLoop st.cursor st.pending st.cursor st.plan).plan du).plan := rfl
    have hcur : (stepEvent st (Event.relative nm du fl tks)).cursor
        = (relLoop (Event.relative nm du fl tks)
            (flushLoop st.cursor st.pending st.cursor st.plan).pending
            (flushLoop st.cursor st.pending st.cursor st.plan).cursor
            (flushLoop st.cursor st.pending st.cursor st.plan).plan du).cursor := rfl
    have hpend : (stepEvent st (Event.relative nm du fl tks)).pending
        = (relLoop (Event.relative nm du fl tks)
            (flushLoop st.cursor st.pending st.cursor st.plan).pending
            (flushLoop st.cursor st.pending st.cursor st.plan).cursor
            (flushLoop st.cursor st.pending st.cursor st.plan).plan du).pending := rfl
    refine ⟨t1 ++ t2, ?_, ?_, ?_, ?_, ?_⟩
    · rw [hplan, h2p, h1p, List.append_assoc]
    · refine chainFrom_append t1 t2 st.cursor h1c ?_
      rw [h1cur] at h2c
      exact h2c
    · rw [hcur, h2cur, h1cur, chainEnd_append]
    · rw [hpend]; exact h2sc
    · rw [hcur, hpend]; exact h2cb

theorem foldl_stepEvent_chain (events : List Event) :
    ∀ (st : SchedState), events.all isRelative = true →
    slotsChained st.pending = true → cursorBelow st.cursor st.pending = true →
    ∃ tail, (events.foldl stepEvent st).plan = st.plan ++ tail
      ∧ chainFrom st.cursor tail
      ∧ (events.foldl stepEvent st).cursor = chainEnd st.cursor tail
      ∧ slotsChained (events.foldl stepEvent st).pending = true
      ∧ cursorBelow (events.foldl stepEvent st).cursor
          (events.foldl stepEvent st).pending = true := by
  induction events with
  | nil =>
    intro st _ hsc hcb
    exact ⟨[], by simp, trivial, rfl, hsc, hcb⟩
  | cons e es ih =>
    intro st hall hsc hcb
    rw [List.all_cons, Bool.and_eq_true] at hall
    obtain ⟨t1, h1p, h1c, h1cur, h1sc, h1cb⟩ := stepEvent_chain st e hall.1 hsc hcb
    obtain ⟨t2, h2p, h2c, h2cur, h2sc, h2cb⟩ := ih (stepEvent st e) hall.2 h1sc h1cb
    rw [List.foldl_cons]
    refine ⟨t1 ++ t2, ?_, ?_, ?_, h2sc, h2cb⟩
    · rw [h2p, h1p, List.append_assoc]
    · refine chainFrom_append t1 t2 st.cursor h1c ?_
      rw [h1cur] at h2c
      exact h2c
    · rw [h2cur, h1cur, chainEnd_append]

/-- C1 (amended): for templates of relative events only, scheduled against
prayer slots that are chained in order with nonnegative durations and start
no earlier than the template's start time, the produced plan is sorted by
start and pairwise non-overlapping. -/
theorem c1_sorted_nonoverlap (template : DayTemplate) (pd : Int)
    (sched : PrayerSchedule) (dcfg : PrayerDurations)
    (hrel : template.events.all isRelative = true)
    (hslots : slotsChained (prayerSlotsOf sched dcfg) = true)
    (hstart : template.startTime ≤ sched.fajr) :
    List.Pairwise (fun a b : ScheduledEvent => a.start ≤ b.start)
      (buildPlan template pd sched dcfg).items
    ∧ List.Pairwise (fun a b : ScheduledEvent => a.stop ≤ b.start ∨ b.stop ≤ a.start)
      (buildPlan template pd sched dcfg).items := by
  set st0 : SchedState :=
    { template := template, schedule := sched, cursor := template.startTime,
      pending := prayerSlotsOf sched dcfg, plan := [] } with hst0
  have hsc0 : slotsChained st0.pending = true := hslots
  have hcb0 : cursorBelow st0.cursor st0.pending = true := by
    show cursorBelow template.startTime (prayerSlotsOf sched dcfg) = true
    simp only [cursorBelow, prayerSlotsOf, decide_eq_true_eq]
    exact hstart
  obtain ⟨t1, h1p, h1c, h1cur, h1sc, h1cb⟩ :=
    foldl_stepEvent_chain template.events st0 hrel hsc0 hcb0
  obtain ⟨t2, h2p, h2c⟩ :=
    finishLoop_chain (template.events.foldl stepEvent st0).pending
      (template.events.foldl stepEvent st0).cursor
      (template.events.foldl stepEvent st0).plan h1sc h1cb
  have hitems : (buildPlan template pd sched dcfg).items
      = (finishLoop (template.events.foldl stepEvent st0).pending
          (template.events.foldl stepEvent st0).cursor
          (template.events.foldl stepEvent st0).plan).plan := rfl
  have hfull : chainFrom st0.cursor (t1 ++ t2) := by
    refine chainFrom_append t1 t2 st0.cursor h1c ?_
    rw [h1cur] at h2c
    exact h2c
  have hplanfull : (buildPlan template pd sched dcfg).items = t1 ++ t2 := by
    rw [hitems, h2p, h1p]
    show ([] ++ t1) ++ t2 = t1 ++ t2
    simp
  have hpw := chainFrom_pairwise (t1 ++ t2) st0.cursor hfull
  have hfwd := chainFrom_all_forward (t1 ++ t2) st0.cursor hfull
  rw [hplanfull]
  constructor
  · exact hpw.imp_of_mem (fun ha hb hr => le_trans (hfwd _ ha) hr)
  · exact hpw.imp (fun hr => Or.inl hr)

theorem c1_witness :
    (c1GoodTemplate.events.all isRelative = true
      ∧ slotsChained (prayerSlotsOf exampleSchedule exampleDurations) = true
      ∧ c1GoodTemplate.startTime ≤ exampleSchedule.fajr)
    ∧ (List.Pairwise (fun a b : ScheduledEvent => a.start ≤ b.start)
        (buildPlan c1GoodTemplate 0 exampleSchedule exampleDurations).items
      ∧ List.Pairwise (fun a b : ScheduledEvent => a.stop ≤ b.start ∨ b.stop ≤ a.start)
        (buildPlan c1GoodTemplate 0 exampleSchedule exampleDurations).items) :=
  ⟨⟨by decide, by decide, by decide⟩,
   c1_sorted_nonoverlap c1GoodTemplate 0 exampleSchedule exampleDurations
     (by decide) (by decide) (by decide)⟩

/-- C1 fails in general: a fixed event anchored before an already flushed
prayer entry yields a plan that is neither sorted by start nor
non-overlapping. -/
theorem c1_counterexample :
    ¬ (List.Pairwise (fun a b : ScheduledEvent => a.start ≤ b.start)
        (buildPlan c1BadTemplate 0 exampleSchedule exampleDurations).items
      ∧ List.Pairwise (fun a b : ScheduledEvent => a.stop ≤ b.start ∨ b.stop ≤ a.start)
        (buildPlan c1BadTemplate 0 exampleSchedule exampleDurations).items) := by
  decide

end Munazzim
